import Mathlib

/-!
Verification development for the trading-crew repository.

Shallow embedding conventions:
* Python `float` values are modelled as rationals (`ℚ`).  The one place a
  claim depends on IEEE-754 rounding — the replay-row count
  `math.ceil(replay_ratio * base_count / (1.0 - replay_ratio))` — is
  modelled bit-exactly: `roundPair` (and its rational mirror `roundDouble`)
  performs round-to-nearest, ties to even on a 53-bit significand (with
  unbounded exponent, which agrees with binary64 on the normal range every
  value here lives in), and `replayCount` applies it after each
  multiplication, subtraction and division, exactly as CPython evaluates
  the expression (for a configured ratio in `[0, 1)` and base counts below
  `2^53`, where the int-to-float conversion is exact).  `roundPair` works
  on raw numerator/denominator pairs; its exponent (`pairExp`) and
  nearest-even rounding depend only on the value of the fraction, so the
  unreduced pairs threaded through `replayCount` carry exactly the float
  values of the source expression.  Every other float in the claims
  enters only through orderings, minima and comparisons against exact
  decimal thresholds, or through `ceil(total * 0.2)` whose binary64 value
  coincides with the exact `⌈total/5⌉` for every total below `10^6`, far
  beyond the sizes arising here; those are kept as exact rationals.
* Timestamps and instants are modelled as natural numbers (seconds).
* Python dictionaries with insertion-order iteration are modelled as
  association lists that append new keys at the end and update existing
  keys in place.
* Exceptions are modelled with `Except`; a raised exception that the code
  under scrutiny does not catch is an `Except.error` result.
* The Mersenne-Twister generator behind `random.Random` lives in the Python
  standard library, outside this repository; the weighted sampler is
  therefore parameterised by an oracle stream of naturals, each draw picking
  `stream.head % pool.length`.  Every pool element has positive weight
  (`1 + i/(n-1) ≥ 1`), so exactly the oracle-reachable picks are the
  RNG-reachable picks.
-/

namespace Trading

/-- `SignalDirection` literal from `models/schemas.py`. -/
inductive SignalDirection : Type
  | buy
  | sell
  | hold
  | abstain
deriving DecidableEq, Repr

/-- `AgentStatus` literal from `models/schemas.py`. -/
inductive AgentStatus : Type
  | success
  | abstain
  | error
deriving DecidableEq, Repr

/-- `MarketRegime` literal from `models/schemas.py`. -/
inductive MarketRegime : Type
  | trending_bull
  | trending_bear
  | mean_reverting
  | high_volatility
deriving DecidableEq, Repr

/-- Declared regime enumeration order, as in `training/dataset_builder.py`
and `training/evaluator.py` (`REGIMES`). -/
def REGIMES : List MarketRegime :=
  [.trending_bull, .trending_bear, .mean_reverting, .high_volatility]

/-- `RiskAssessment` model from `models/schemas.py` (field ranges are
checked by `RiskAssessment.Valid`). -/
structure RiskAssessment : Type where
  approved : Bool
  reason : String
  adjusted_size : ℚ
deriving DecidableEq, Repr

/-- Pydantic range constraints on `RiskAssessment`. -/
def RiskAssessment.Valid (a : RiskAssessment) : Prop :=
  0 ≤ a.adjusted_size ∧ a.adjusted_size ≤ 1

/-- `RiskContext` model from `models/schemas.py`. -/
structure RiskContext : Type where
  portfolio_value : ℚ
  proposed_position_value : ℚ
  current_daily_drawdown_pct : ℚ
  sector_exposure_pct : ℚ
  minutes_to_major_event : ℤ
  instrument_history_days : ℤ
deriving DecidableEq, Repr

/-- Pydantic range constraints on `RiskContext`
(`portfolio_value` has `gt=0.0`, `instrument_history_days` has `ge=0`). -/
def RiskContext.Valid (c : RiskContext) : Prop :=
  0 < c.portfolio_value ∧ 0 ≤ c.proposed_position_value ∧
    0 ≤ c.current_daily_drawdown_pct ∧
    0 ≤ c.sector_exposure_pct ∧ c.sector_exposure_pct ≤ 1 ∧
    0 ≤ c.instrument_history_days

instance (c : RiskContext) : Decidable c.Valid := by
  unfold RiskContext.Valid; infer_instance

/-- `RiskLimits` dataclass from `agents/risk_agent.py`. -/
structure RiskLimits : Type where
  max_position_pct : ℚ := 1/50
  max_daily_drawdown_pct : ℚ := 1/20
  max_correlated_exposure_pct : ℚ := 1/10
  no_trade_event_window_minutes : ℤ := 5
  min_history_days : ℤ := 30
deriving DecidableEq, Repr

/-- `RiskAgent._reject` from `agents/risk_agent.py` (logging dropped). -/
def riskReject (reason : String) (adjusted_size : ℚ) : RiskAssessment :=
  { approved := false, reason := reason, adjusted_size := adjusted_size }

/-- `RiskAgent.assess` from `agents/risk_agent.py`, transcribed check by
check, including the `portfolio_value > 0` guard around the division. -/
def riskAssess (limits : RiskLimits) (context : RiskContext) : RiskAssessment :=
  let max_position_value := context.portfolio_value * limits.max_position_pct
  let adjusted_size :=
    min
      (if 0 < context.portfolio_value then
        context.proposed_position_value / context.portfolio_value
      else 0)
      limits.max_position_pct
  if limits.max_daily_drawdown_pct ≤ context.current_daily_drawdown_pct then
    riskReject "Daily drawdown breach: trading halted." 0
  else if |context.minutes_to_major_event| ≤ limits.no_trade_event_window_minutes then
    riskReject "Within major economic event no-trade window." 0
  else if context.instrument_history_days < limits.min_history_days then
    riskReject "Instrument has fewer than 30 days of history." 0
  else if limits.max_correlated_exposure_pct < context.sector_exposure_pct then
    riskReject "Sector correlated exposure exceeds 10%." 0
  else if max_position_value < context.proposed_position_value then
    { approved := true
      reason := "Position size adjusted to risk limit."
      adjusted_size := limits.max_position_pct }
  else
    { approved := true, reason := "Approved", adjusted_size := adjusted_size }

/-- `RiskAgent.assess` with the `else 0.0` empty-portfolio fallback removed:
the adjusted size is computed by unconditional division.  Used to show the
fallback branch is unreachable for schema-valid contexts. -/
def riskAssessDivisionOnly (limits : RiskLimits) (context : RiskContext) : RiskAssessment :=
  let max_position_value := context.portfolio_value * limits.max_position_pct
  let adjusted_size :=
    min (context.proposed_position_value / context.portfolio_value)
      limits.max_position_pct
  if limits.max_daily_drawdown_pct ≤ context.current_daily_drawdown_pct then
    riskReject "Daily drawdown breach: trading halted." 0
  else if |context.minutes_to_major_event| ≤ limits.no_trade_event_window_minutes then
    riskReject "Within major economic event no-trade window." 0
  else if context.instrument_history_days < limits.min_history_days then
    riskReject "Instrument has fewer than 30 days of history." 0
  else if limits.max_correlated_exposure_pct < context.sector_exposure_pct then
    riskReject "Sector correlated exposure exceeds 10%." 0
  else if max_position_value < context.proposed_position_value then
    { approved := true
      reason := "Position size adjusted to risk limit."
      adjusted_size := limits.max_position_pct }
  else
    { approved := true, reason := "Approved", adjusted_size := adjusted_size }

/-- A concrete schema-valid risk context used by witnesses. -/
def sampleRiskContext : RiskContext :=
  { portfolio_value := 100000, proposed_position_value := 5000,
    current_daily_drawdown_pct := 0, sector_exposure_pct := 1/20,
    minutes_to_major_event := 120, instrument_history_days := 365 }

/-! ### Coordinator (`agents/coordinator.py`) -/

/-- The signal payload fields `Coordinator.aggregate` reads
(`response.payload.direction` of the `BaseSignal` variants). -/
structure SignalPayload : Type where
  direction : SignalDirection
deriving DecidableEq, Repr

/-- The `AgentResponse` fields `Coordinator.aggregate` reads. -/
structure AgentResponse : Type where
  agent_id : String
  status : AgentStatus
  payload : SignalPayload
  confidence : ℚ
deriving DecidableEq, Repr

/-- `CoordinatorConfig` dataclass from `agents/coordinator.py`. -/
structure CoordinatorConfig : Type where
  signal_timeout_seconds : ℤ := 30
  min_confidence : ℚ := 3/5
  default_position_size : ℚ := 1/100
  min_agent_weight : ℚ := 1/20
deriving DecidableEq, Repr

/-- `TradeDecision` model from `models/schemas.py` (weighted votes kept as
the insertion-ordered association list the coordinator builds). -/
structure TradeDecision : Type where
  task_id : String
  asset : String
  direction : SignalDirection
  confidence : ℚ
  approved : Bool
  veto_reason : Option String
  position_size : ℚ
  weighted_votes : List (SignalDirection × ℚ)
deriving DecidableEq, Repr

/-- Python-dict update: `votes[direction] += value` on a `defaultdict(float)`
keeps the key at its first-insertion position and appends new keys. -/
def addVote : List (SignalDirection × ℚ) → SignalDirection → ℚ →
    List (SignalDirection × ℚ)
  | [], d, v => [(d, v)]
  | (k, x) :: rest, d, v =>
      if k = d then (k, x + v) :: rest else (k, x) :: addVote rest d v

/-- Python `max(items, key=lambda item: item[1])`: the first item of maximal
value in iteration order (later items replace only on a strictly greater
value). -/
def pythonMaxByVal (items : List (SignalDirection × ℚ)) :
    Option (SignalDirection × ℚ) :=
  items.foldl
    (fun best item =>
      match best with
      | none => some item
      | some cur => if cur.2 < item.2 then some item else some cur)
    none

/-- Association-list lookup modelling `dict.get(agent_id, fallback)`. -/
def weightLookup (weights : List (String × ℚ)) (agent : String)
    (fallback : ℚ) : ℚ :=
  match weights.find? (fun w => w.1 == agent) with
  | some w => w.2
  | none => fallback

/-- `Coordinator._normalize_weights` from `agents/coordinator.py`:
floor each weight at `min_agent_weight`, then divide by the sum
(uniform weights if the post-floor sum is not positive). -/
def normalizeWeights (cfg : CoordinatorConfig) (raw : List (String × ℚ)) :
    List (String × ℚ) :=
  if raw = [] then []
  else
    let floored := raw.map (fun w => (w.1, max w.2 cfg.min_agent_weight))
    let total := (floored.map (·.2)).sum
    if total ≤ 0 then floored.map (fun w => (w.1, 1 / (floored.length : ℚ)))
    else floored.map (fun w => (w.1, w.2 / total))

/-- Responses retained by `Coordinator.aggregate` step 1:
`status == "success" and confidence >= min_confidence`. -/
def validResponses (cfg : CoordinatorConfig) (responses : List AgentResponse) :
    List AgentResponse :=
  responses.filter
    (fun r => r.status == AgentStatus.success &&
      decide (cfg.min_confidence ≤ r.confidence))

/-- The vote accumulation loop of `Coordinator.aggregate`:
`votes[payload.direction] += confidence * weights.get(agent_id, min_agent_weight)`. -/
def votesOf (cfg : CoordinatorConfig) (weights : List (String × ℚ))
    (responses : List AgentResponse) : List (SignalDirection × ℚ) :=
  (validResponses cfg responses).foldl
    (fun acc r =>
      addVote acc r.payload.direction
        (r.confidence * weightLookup weights r.agent_id cfg.min_agent_weight))
    []

/-- `direction, confidence = max(votes.items(), key=...)` with the
`("abstain", 0.0)` default for an empty vote dict. -/
def maxDirection (votes : List (SignalDirection × ℚ)) : SignalDirection × ℚ :=
  match pythonMaxByVal votes with
  | some dc => dc
  | none => (SignalDirection.abstain, 0)

/-- Decision assembly of `Coordinator.aggregate` steps 3-6
(`approved = risk.approved and direction in {buy, sell}` etc.). -/
def decisionFrom (cfg : CoordinatorConfig) (task_id asset : String)
    (risk_assessment : RiskAssessment)
    (votes : List (SignalDirection × ℚ)) : TradeDecision :=
  { task_id := task_id
    asset := asset
    direction := (maxDirection votes).1
    confidence := min (maxDirection votes).2 1
    approved := risk_assessment.approved &&
      ((maxDirection votes).1 == SignalDirection.buy ||
        (maxDirection votes).1 == SignalDirection.sell)
    veto_reason :=
      if risk_assessment.approved &&
          ((maxDirection votes).1 == SignalDirection.buy ||
            (maxDirection votes).1 == SignalDirection.sell) then none
      else some risk_assessment.reason
    position_size :=
      if risk_assessment.approved &&
          ((maxDirection votes).1 == SignalDirection.buy ||
            (maxDirection votes).1 == SignalDirection.sell) then
        min cfg.default_position_size risk_assessment.adjusted_size
      else 0
    weighted_votes := votes }

/-- `Coordinator.aggregate` from `agents/coordinator.py`, over the
coordinator's stored (already normalized) weights.  Logging dropped;
`task_id`/`asset` fields carried through unchanged. -/
def aggregate (cfg : CoordinatorConfig) (weights : List (String × ℚ))
    (task_id asset : String) (responses : List AgentResponse)
    (risk_assessment : RiskAssessment) : TradeDecision :=
  decisionFrom cfg task_id asset risk_assessment (votesOf cfg weights responses)

/-- Context whose risk assessment approves with `adjusted_size = 0`
(proposed position value `0` passes every hard limit and divides to `0`). -/
def zeroSizeContext : RiskContext :=
  { portfolio_value := 100000, proposed_position_value := 0,
    current_daily_drawdown_pct := 0, sector_exposure_pct := 0,
    minutes_to_major_event := 100, instrument_history_days := 60 }

/-- One valid buy response at confidence 4/5. -/
def buyResponse : AgentResponse :=
  { agent_id := "technical_agent", status := .success,
    payload := { direction := .buy }, confidence := 4/5 }

/-- One valid sell response at confidence 4/5. -/
def sellResponse : AgentResponse :=
  { agent_id := "research_agent", status := .success,
    payload := { direction := .sell }, confidence := 4/5 }

/-- Equal weights for the two voting agents, as in spec scenario 3. -/
def evenWeights : List (String × ℚ) :=
  normalizeWeights {} [("technical_agent", 1/2), ("research_agent", 1/2)]

end Trading

/-- C1 counterexample: when the risk agent approves with
`adjusted_size = 0` (here: a schema-valid context proposing a zero
position), `Coordinator.aggregate` returns a decision with
`approved = true` and `position_size = 0`, violating
`approved ⇒ position_size > 0`. -/
theorem aggregate_approved_with_zero_position :
    (Trading.riskAssess {} Trading.zeroSizeContext).approved = true ∧
      (Trading.riskAssess {} Trading.zeroSizeContext).adjusted_size = 0 ∧
      (Trading.aggregate {} Trading.evenWeights "task-1" "SPY"
          [Trading.buyResponse]
          (Trading.riskAssess {} Trading.zeroSizeContext)).approved = true ∧
      (Trading.aggregate {} Trading.evenWeights "task-1" "SPY"
          [Trading.buyResponse]
          (Trading.riskAssess {} Trading.zeroSizeContext)).position_size = 0 := by
  with_unfolding_all decide

/-- C1 amended: for every aggregation, an approved decision has a buy/sell
direction and `position_size = min(default_position_size, adjusted_size)`,
which is positive whenever the risk assessment's `adjusted_size` is
positive (with the default `default_position_size > 0`); a non-approved
decision has `position_size = 0`.  The original invariant fails only when
the risk agent approves with `adjusted_size = 0`. -/
theorem aggregate_position_invariant
    (cfg : Trading.CoordinatorConfig) (weights : List (String × ℚ))
    (task_id asset : String) (responses : List Trading.AgentResponse)
    (risk : Trading.RiskAssessment)
    (hdef : 0 < cfg.default_position_size) :
    ((Trading.aggregate cfg weights task_id asset responses risk).approved = true →
      ((Trading.aggregate cfg weights task_id asset responses risk).direction =
          Trading.SignalDirection.buy ∨
        (Trading.aggregate cfg weights task_id asset responses risk).direction =
          Trading.SignalDirection.sell) ∧
      (Trading.aggregate cfg weights task_id asset responses risk).position_size =
        min cfg.default_position_size risk.adjusted_size ∧
      (0 < risk.adjusted_size →
        0 < (Trading.aggregate cfg weights task_id asset responses risk).position_size)) ∧
    ((Trading.aggregate cfg weights task_id asset responses risk).approved = false →
      (Trading.aggregate cfg weights task_id asset responses risk).position_size = 0) := by
  unfold Trading.aggregate
  generalize Trading.votesOf cfg weights responses = votes
  cases hb : risk.approved &&
      ((Trading.maxDirection votes).1 == Trading.SignalDirection.buy ||
        (Trading.maxDirection votes).1 == Trading.SignalDirection.sell) with
  | false =>
      constructor
      · intro htrue
        simp [Trading.decisionFrom, hb] at htrue
      · intro _
        simp [Trading.decisionFrom, hb]
  | true =>
      rcases Bool.and_eq_true .. |>.mp hb with ⟨-, hdir⟩
      constructor
      · intro _
        refine ⟨?_, ?_, fun hadj => ?_⟩
        · simpa [Trading.decisionFrom] using
            (by simpa using hdir :
              (Trading.maxDirection votes).1 = Trading.SignalDirection.buy ∨
                (Trading.maxDirection votes).1 = Trading.SignalDirection.sell)
        · simp [Trading.decisionFrom, hb]
        · simp only [Trading.decisionFrom, hb, if_true]
          exact lt_min hdef hadj
      · intro hfalse
        simp [Trading.decisionFrom, hb] at hfalse

/-- Witness for C1's amended theorem at the counterexample inputs. -/
theorem aggregate_position_invariant_witness :
    (0 : ℚ) < ({} : Trading.CoordinatorConfig).default_position_size ∧
      (((Trading.aggregate {} Trading.evenWeights "task-1" "SPY"
            [Trading.buyResponse]
            (Trading.riskAssess {} Trading.zeroSizeContext)).approved = true →
        ((Trading.aggregate {} Trading.evenWeights "task-1" "SPY"
            [Trading.buyResponse]
            (Trading.riskAssess {} Trading.zeroSizeContext)).direction =
            Trading.SignalDirection.buy ∨
          (Trading.aggregate {} Trading.evenWeights "task-1" "SPY"
              [Trading.buyResponse]
              (Trading.riskAssess {} Trading.zeroSizeContext)).direction =
            Trading.SignalDirection.sell) ∧
        (Trading.aggregate {} Trading.evenWeights "task-1" "SPY"
            [Trading.buyResponse]
            (Trading.riskAssess {} Trading.zeroSizeContext)).position_size =
          min ({} : Trading.CoordinatorConfig).default_position_size
            (Trading.riskAssess {} Trading.zeroSizeContext).adjusted_size ∧
        (0 < (Trading.riskAssess {} Trading.zeroSizeContext).adjusted_size →
          0 < (Trading.aggregate {} Trading.evenWeights "task-1" "SPY"
              [Trading.buyResponse]
              (Trading.riskAssess {} Trading.zeroSizeContext)).position_size)) ∧
      ((Trading.aggregate {} Trading.evenWeights "task-1" "SPY"
            [Trading.buyResponse]
            (Trading.riskAssess {} Trading.zeroSizeContext)).approved = false →
        (Trading.aggregate {} Trading.evenWeights "task-1" "SPY"
            [Trading.buyResponse]
            (Trading.riskAssess {} Trading.zeroSizeContext)).position_size = 0)) :=
  ⟨by with_unfolding_all decide,
    aggregate_position_invariant {} Trading.evenWeights "task-1" "SPY"
      [Trading.buyResponse] (Trading.riskAssess {} Trading.zeroSizeContext)
      (by with_unfolding_all decide)⟩

/-- C2 counterexample: with the spec's tie scenario supplied in the order
(sell response, buy response) — equal confidence 4/5, equal weight 1/2,
risk approved — the decision direction is `sell`, not the enum-order
winner `buy`: the tie-break depends on response supply order. -/
theorem aggregate_tiebreak_order_dependent :
    (Trading.aggregate {} Trading.evenWeights "task-1" "SPY"
        [Trading.sellResponse, Trading.buyResponse]
        { approved := true, reason := "Approved", adjusted_size := 1/50
        }).direction = Trading.SignalDirection.sell ∧
      Trading.SignalDirection.sell ≠ Trading.SignalDirection.buy := by
  with_unfolding_all decide

/-- C2 amended: on a two-response tie (equal confidence at or above
`min_confidence`, equal effective weight, distinct directions), the chosen
direction is the one of the *first supplied* response — Python's `max` over
the insertion-ordered vote dict keeps the first key on ties — rather than
the first direction in enum declaration order. -/
theorem aggregate_tiebreak_first_supplied
    (cfg : Trading.CoordinatorConfig) (weights : List (String × ℚ))
    (task_id asset : String) (a₁ a₂ : String)
    (d₁ d₂ : Trading.SignalDirection) (c : ℚ)
    (risk : Trading.RiskAssessment)
    (hne : d₁ ≠ d₂)
    (hconf : cfg.min_confidence ≤ c)
    (hw : Trading.weightLookup weights a₁ cfg.min_agent_weight =
      Trading.weightLookup weights a₂ cfg.min_agent_weight) :
    (Trading.aggregate cfg weights task_id asset
        [{ agent_id := a₁, status := .success,
           payload := { direction := d₁ }, confidence := c },
         { agent_id := a₂, status := .success,
           payload := { direction := d₂ }, confidence := c }]
        risk).direction = d₁ := by
  unfold Trading.aggregate Trading.votesOf Trading.validResponses
  simp only [List.filter, hconf, decide_True, Bool.and_true, beq_self_eq_true]
  simp only [List.foldl, Trading.addVote]
  rw [if_neg hne]
  unfold Trading.decisionFrom
  simp only [Trading.maxDirection, Trading.pythonMaxByVal, List.foldl, hw]
  rw [if_neg (lt_irrefl _)]

/-- Witness for C2's amended theorem: sell supplied first beats buy. -/
theorem aggregate_tiebreak_first_supplied_witness :
    Trading.SignalDirection.sell ≠ Trading.SignalDirection.buy ∧
      ({} : Trading.CoordinatorConfig).min_confidence ≤ (4/5 : ℚ) ∧
      Trading.weightLookup Trading.evenWeights "research_agent"
          ({} : Trading.CoordinatorConfig).min_agent_weight =
        Trading.weightLookup Trading.evenWeights "technical_agent"
          ({} : Trading.CoordinatorConfig).min_agent_weight ∧
      (Trading.aggregate {} Trading.evenWeights "task-1" "SPY"
          [{ agent_id := "research_agent", status := .success,
             payload := { direction := .sell }, confidence := 4/5 },
           { agent_id := "technical_agent", status := .success,
             payload := { direction := .buy }, confidence := 4/5 }]
          { approved := true, reason := "Approved",
            adjusted_size := 1/50 }).direction =
        Trading.SignalDirection.sell :=
  ⟨by with_unfolding_all decide, by with_unfolding_all decide,
    by with_unfolding_all decide,
    aggregate_tiebreak_first_supplied {} Trading.evenWeights "task-1" "SPY"
      "research_agent" "technical_agent" .sell .buy (4/5)
      { approved := true, reason := "Approved", adjusted_size := 1/50 }
      (by with_unfolding_all decide) (by with_unfolding_all decide)
      (by with_unfolding_all decide)⟩

/-- C10: for every schema-valid `RiskContext` (which forces
`portfolio_value > 0`), `RiskAgent.assess` takes the division branch of the
adjusted-size computation; the `0.0` empty-portfolio fallback is
unreachable, so `assess` agrees with the fallback-free variant. -/
theorem riskAssess_division_branch_total
    (limits : Trading.RiskLimits) (context : Trading.RiskContext)
    (h : context.Valid) :
    Trading.riskAssess limits context =
      Trading.riskAssessDivisionOnly limits context := by
  unfold Trading.riskAssess Trading.riskAssessDivisionOnly
  rcases h with ⟨hpv, -⟩
  simp [if_pos hpv]

/-- Witness for C10 at a concrete schema-valid context. -/
theorem riskAssess_division_branch_total_witness :
    Trading.sampleRiskContext.Valid ∧
      Trading.riskAssess {} Trading.sampleRiskContext =
        Trading.riskAssessDivisionOnly {} Trading.sampleRiskContext :=
  ⟨by with_unfolding_all decide,
    riskAssess_division_branch_total {} Trading.sampleRiskContext
      (by with_unfolding_all decide)⟩

namespace Trading

/-! ### Order manager (`tools/order_manager.py`) -/

/-- `ExchangeName` literal. -/
inductive ExchangeName : Type
  | alpaca
  | kraken
deriving DecidableEq, Repr

/-- `OrderSide` literal. -/
inductive OrderSide : Type
  | buy
  | sell
deriving DecidableEq, Repr

/-- `OrderType` literal. -/
inductive OrderType : Type
  | market
  | limit
deriving DecidableEq, Repr

/-- `OrderRequest` dataclass from `tools/order_manager.py` (plain
dataclass; no field validation at construction). -/
structure OrderRequest : Type where
  symbol : String
  side : OrderSide
  quantity : ℚ
  order_type : OrderType
  exchange : ExchangeName
  price : Option ℚ := none
deriving DecidableEq, Repr

/-- `OrderResponse` dataclass from `tools/order_manager.py`. -/
structure OrderResponse : Type where
  accepted : Bool
  order_id : Option String
  reason : String
  retryable : Bool := false
deriving DecidableEq, Repr

/-- Outcome of the injected ccxt client's `create_order` call inside
`KrakenOrderManager.place_order`: a returned payload whose `"id"` entry is
`id` (already rendered to a string, `none` for a null id), or a raised
exception — transient (`TimeoutError`/`ConnectionError`) or any other
class. -/
inductive CreateOrderOutcome : Type
  | ret (id : Option String)
  | raiseTransient (msg : String)
  | raiseOther (msg : String)
deriving DecidableEq, Repr

/-- `KrakenOrderManager.place_order` from `tools/order_manager.py`.  The
reason chosen on a returned payload follows Python truthiness of
`order_id` (`None` and `""` are both falsy), while `accepted` is
`order_id is not None`. -/
def krakenPlaceOrder (request : OrderRequest) (outcome : CreateOrderOutcome) :
    OrderResponse :=
  if request.exchange ≠ ExchangeName.kraken then
    { accepted := false, order_id := none,
      reason := "Kraken manager received non-Kraken exchange request.",
      retryable := false }
  else if request.quantity ≤ 0 then
    { accepted := false, order_id := none,
      reason := "Order quantity must be positive.", retryable := false }
  else if request.order_type = OrderType.limit ∧ request.price = none then
    { accepted := false, order_id := none,
      reason := "Limit order requires explicit price.", retryable := false }
  else
    match outcome with
    | .ret id =>
        { accepted := id.isSome
          order_id := id
          reason :=
            if id.getD "" ≠ "" then "Order accepted by Kraken."
            else "Kraken did not return order id."
          retryable := false }
    | .raiseTransient msg =>
        { accepted := false, order_id := none,
          reason := "Transient Kraken API error: " ++ msg, retryable := true }
    | .raiseOther msg =>
        { accepted := false, order_id := none,
          reason := "Kraken order rejected: " ++ msg, retryable := false }

/-! ### Execution agent (`agents/execution_agent.py`) -/

/-- `ExecutionResult` dataclass. -/
structure ExecutionResult : Type where
  success : Bool
  order_id : Option String
  reason : String
deriving DecidableEq, Repr

/-- Instrumentation of one `execute` call: number of
`order_manager.place_order` invocations and the delays passed to
`asyncio.sleep`, in order. -/
structure ExecTrace : Type where
  calls : ℕ
  sleeps : List ℚ
deriving DecidableEq, Repr

/-- An exception propagating out of `execute` (uncaught by the agent). -/
structure PyError : Type where
  msg : String
deriving DecidableEq, Repr

/-- Behaviour of `order_manager.place_order` on one attempt: a returned
`OrderResponse`, a raised `RuntimeError`, or a raised exception of any
other class. -/
inductive PlaceOrderBehavior : Type
  | ret (response : OrderResponse)
  | raiseRuntimeError (msg : String)
  | raiseOther (msg : String)
deriving DecidableEq, Repr

/-- The `OrderRequest` the execution agent submits on every attempt
(built once before the retry loop). -/
def orderRequestOf (exchange : ExchangeName) (side : OrderSide)
    (decision : TradeDecision) : OrderRequest :=
  { symbol := decision.asset
    side := side
    quantity := max decision.position_size 0
    order_type := OrderType.market
    exchange := exchange }

/-- The retry loop of `ExecutionAgent.execute`
(`for attempt in range(1, max_retries + 1)`), with `remaining` the number
of attempts left.  The source catches only `RuntimeError`; a raised
exception of any other class propagates (`Except.error`).  Between
attempts (`attempt < max_retries`, i.e. `remaining ≠ 0` after this
attempt) the agent sleeps `delay` and doubles it. -/
def executeLoop (behaviors : ℕ → PlaceOrderBehavior) :
    (attempt remaining : ℕ) → (delay : ℚ) → (trace : ExecTrace) →
      Except PyError ExecutionResult × ExecTrace
  | _, 0, _, trace =>
      (.ok { success := false, order_id := none, reason := "Exhausted retries." },
        trace)
  | attempt, remaining + 1, delay, trace =>
      let trace := { trace with calls := trace.calls + 1 }
      let retryStep : Except PyError ExecutionResult × ExecTrace :=
        if remaining = 0 then
          (.ok { success := false, order_id := none,
                 reason := "Exhausted retries." }, trace)
        else
          executeLoop behaviors (attempt + 1) remaining (delay * 2)
            { trace with sleeps := trace.sleeps ++ [delay] }
      match behaviors attempt with
      | .ret response =>
          if response.accepted then
            (.ok { success := true, order_id := response.order_id,
                   reason := response.reason }, trace)
          else if !response.retryable then
            (.ok { success := false, order_id := response.order_id,
                   reason := response.reason }, trace)
          else retryStep
      | .raiseRuntimeError _ => retryStep
      | .raiseOther msg => (.error { msg := msg }, trace)

/-- `ExecutionAgent.execute` from `agents/execution_agent.py`: risk gate,
direction dispatch, paper short-circuit, then the live retry loop.  The
order manager is abstracted by the per-attempt `behaviors`; on every
attempt it receives `orderRequestOf exchange side decision`. -/
def execute (live_trading : Bool) (max_retries : ℕ)
    (initial_retry_delay_seconds : ℚ)
    (behaviors : ℕ → PlaceOrderBehavior) (decision : TradeDecision) :
    Except PyError ExecutionResult × ExecTrace :=
  if decision.approved = false then
    (.ok { success := false, order_id := none, reason := "Risk not approved." },
      { calls := 0, sleeps := [] })
  else if decision.direction ≠ SignalDirection.buy ∧
      decision.direction ≠ SignalDirection.sell then
    (.ok { success := false, order_id := none,
           reason := "No executable direction." },
      { calls := 0, sleeps := [] })
  else if live_trading = false then
    (.ok { success := true, order_id := some ("paper-" ++ decision.task_id),
           reason := "Paper order simulated." },
      { calls := 0, sleeps := [] })
  else
    executeLoop behaviors 1 max_retries initial_retry_delay_seconds
      { calls := 0, sleeps := [] }

/-- The exponential backoff schedule: `k` sleeps starting at `d`,
doubling each time. -/
def geomDelays (d : ℚ) : ℕ → List ℚ
  | 0 => []
  | k + 1 => d :: geomDelays (d * 2) k

/-- A concrete valid Kraken market order request used in witnesses. -/
def sampleKrakenRequest : OrderRequest :=
  { symbol := "BTC/USD", side := .buy, quantity := 1,
    order_type := .market, exchange := .kraken }

/-- A live approved buy decision used in execution witnesses. -/
def liveBuyDecision : TradeDecision :=
  { task_id := "task-1", asset := "BTC/USD", direction := .buy,
    confidence := 9/10, approved := true, veto_reason := none,
    position_size := 1/100, weighted_votes := [] }

end Trading

/-- Helper for C7: when every attempt raises `RuntimeError`, the retry
loop exhausts all remaining attempts, sleeping a doubling delay between
consecutive attempts, and ends with the "Exhausted retries." failure. -/
theorem executeLoop_runtime_errors_exhaust
    (behaviors : ℕ → Trading.PlaceOrderBehavior) (msgs : ℕ → String)
    (h : ∀ n, behaviors n = .raiseRuntimeError (msgs n)) :
    ∀ (remaining attempt : ℕ) (delay : ℚ) (trace : Trading.ExecTrace),
      Trading.executeLoop behaviors attempt remaining delay trace =
        (.ok { success := false, order_id := none, reason := "Exhausted retries." },
          { calls := trace.calls + remaining,
            sleeps := trace.sleeps ++ Trading.geomDelays delay (remaining - 1) }) := by
  intro remaining
  induction remaining with
  | zero =>
      intro attempt delay trace
      simp [Trading.executeLoop, Trading.geomDelays]
  | succ r ih =>
      intro attempt delay trace
      rw [Trading.executeLoop]
      simp only [h attempt]
      cases r with
      | zero => simp [Trading.geomDelays]
      | succ r' =>
          simp only [Nat.succ_ne_zero, if_false, ih]
          simp [Trading.geomDelays, Nat.succ_sub_one, List.append_assoc]
          omega

/-- C7 counterexample: on a live, approved buy decision, an exception that
is not a `RuntimeError` (here a `ValueError`) raised by
`order_manager.place_order` is *not* treated as retryable: it propagates
out of `ExecutionAgent.execute` after a single manager call, with no
failure result returned. -/
theorem execute_non_runtime_error_propagates :
    Trading.execute true 3 1 (fun _ => .raiseOther "ValueError: boom")
        Trading.liveBuyDecision =
      (.error { msg := "ValueError: boom" }, { calls := 1, sleeps := [] }) := by
  with_unfolding_all rfl

/-- C7 amended: exceptions of class `RuntimeError` (the only class the
agent catches) are treated as retryable: on a live, approved buy/sell
decision where every attempt raises `RuntimeError`, the agent performs
exactly `max_retries` manager calls, sleeping a doubling delay starting at
`initial_retry_delay_seconds` between consecutive attempts, and returns
the failure result "Exhausted retries."; exceptions of any other class
propagate out of `execute` (see the counterexample). -/
theorem execute_runtime_errors_retried_until_exhausted
    (max_retries : ℕ) (delay : ℚ) (msgs : ℕ → String)
    (decision : Trading.TradeDecision)
    (happ : decision.approved = true)
    (hdir : decision.direction = Trading.SignalDirection.buy ∨
      decision.direction = Trading.SignalDirection.sell) :
    Trading.execute true max_retries delay
        (fun n => .raiseRuntimeError (msgs n)) decision =
      (.ok { success := false, order_id := none, reason := "Exhausted retries." },
        { calls := max_retries,
          sleeps := Trading.geomDelays delay (max_retries - 1) }) := by
  unfold Trading.execute
  rw [if_neg (by simp [happ])]
  rw [if_neg (by rcases hdir with h | h <;> simp [h])]
  rw [if_neg (by simp)]
  rw [executeLoop_runtime_errors_exhaust _ msgs (fun _ => rfl)]
  simp

/-- Witness for C7's amended theorem: three `RuntimeError` attempts at
initial delay 1 give three calls, sleeps `[1, 2]`, and the
"Exhausted retries." failure. -/
theorem execute_runtime_errors_retried_until_exhausted_witness :
    Trading.liveBuyDecision.approved = true ∧
      (Trading.liveBuyDecision.direction = Trading.SignalDirection.buy ∨
        Trading.liveBuyDecision.direction = Trading.SignalDirection.sell) ∧
      Trading.execute true 3 1
          (fun _ => .raiseRuntimeError "RuntimeError: boom")
          Trading.liveBuyDecision =
        (.ok { success := false, order_id := none, reason := "Exhausted retries." },
          { calls := 3, sleeps := Trading.geomDelays 1 (3 - 1) }) :=
  ⟨rfl, Or.inl rfl,
    execute_runtime_errors_retried_until_exhausted 3 1
      (fun _ => "RuntimeError: boom") Trading.liveBuyDecision rfl (Or.inl rfl)⟩

/-- C9: if a Kraken order request passes validation (kraken exchange,
positive quantity, limit orders priced) and the exchange client's
`create_order` returns without raising but with a null order id, the
response is `accepted = false`, `order_id = None`, `retryable = false`,
with the "Kraken did not return order id." reason — a terminal rejection,
not a success and not a retryable failure. -/
theorem krakenPlaceOrder_null_id_terminal
    (request : Trading.OrderRequest)
    (hex : request.exchange = Trading.ExchangeName.kraken)
    (hq : 0 < request.quantity)
    (hp : request.order_type = Trading.OrderType.limit → request.price ≠ none) :
    Trading.krakenPlaceOrder request (.ret none) =
      { accepted := false, order_id := none,
        reason := "Kraken did not return order id.", retryable := false } := by
  unfold Trading.krakenPlaceOrder
  rw [if_neg (by simp [hex])]
  rw [if_neg (not_le.mpr hq)]
  rw [if_neg (fun hc => hp hc.1 hc.2)]
  simp

/-- Witness for C9 at a concrete valid market order. -/
theorem krakenPlaceOrder_null_id_terminal_witness :
    Trading.sampleKrakenRequest.exchange = Trading.ExchangeName.kraken ∧
      (0 : ℚ) < Trading.sampleKrakenRequest.quantity ∧
      Trading.krakenPlaceOrder Trading.sampleKrakenRequest (.ret none) =
        { accepted := false, order_id := none,
          reason := "Kraken did not return order id.", retryable := false } :=
  ⟨rfl, by with_unfolding_all decide,
    krakenPlaceOrder_null_id_terminal Trading.sampleKrakenRequest
      rfl (by with_unfolding_all decide)
      (fun hc => by simp [Trading.sampleKrakenRequest] at hc)⟩

namespace Trading

/-! ### Market data client (`tools/market_data.py`) -/

/-- `AssetClass` literal from `models/schemas.py`. -/
inductive AssetClass : Type
  | equity
  | crypto
  | etf
  | fx
  | other
deriving DecidableEq, Repr

/-- `Timeframe` literal from `models/schemas.py`. -/
inductive Timeframe : Type
  | m1
  | m5
  | m15
  | h1
  | h4
  | d1
deriving DecidableEq, Repr

/-- The candle fields the market data client reads: timestamp (seconds)
and close price. -/
structure CandleLite : Type where
  timestamp : ℕ
  close : ℚ
deriving DecidableEq, Repr

/-- `MarketSnapshot` dataclass (fields the client logic reads). -/
structure MarketSnapshot : Type where
  asset : String
  source : String
  candles : List CandleLite
deriving DecidableEq, Repr

/-- `DataFreshnessPolicy` dataclass. -/
structure DataFreshnessPolicy : Type where
  intraday_max_age_minutes : ℕ := 15
  swing_max_age_days : ℕ := 1
deriving DecidableEq, Repr

/-- `DataFreshnessPolicy.max_age_for_timeframe`, in seconds (`timedelta`
modelled as a second count). -/
def maxAgeForTimeframe (p : DataFreshnessPolicy) (tf : Timeframe) : ℕ :=
  match tf with
  | .d1 => p.swing_max_age_days * 86400
  | _ => p.intraday_max_age_minutes * 60

/-- `max(candle.timestamp for candle in snapshot.candles)` (callers only
use this on a nonempty candle list). -/
def latestTimestamp (candles : List CandleLite) : ℕ :=
  (candles.map (·.timestamp)).foldl max 0

/-- `DataFreshnessPolicy.is_stale`: no candles, or the latest candle older
than the timeframe's maximum age (truncated subtraction matches Python's
negative-age-is-fresh behaviour of `datetime` differences). -/
def isStale (p : DataFreshnessPolicy) (now : ℕ) (snapshot : MarketSnapshot)
    (tf : Timeframe) : Bool :=
  if snapshot.candles.isEmpty then true
  else decide (maxAgeForTimeframe p tf < now - latestTimestamp snapshot.candles)

/-- `_ProviderState` dataclass. -/
structure ProviderState : Type where
  failures : ℕ := 0
  circuit_open_until : Option ℕ := none
deriving DecidableEq, Repr

/-- Circuit-breaker knobs of `MarketDataClient.__init__`. -/
structure MarketClientConfig : Type where
  max_provider_failures : ℕ := 3
  circuit_cooldown_seconds : ℕ := 120
deriving DecidableEq, Repr

/-- `MarketDataClient._is_circuit_open`. -/
def isCircuitOpen (now : ℕ) (st : ProviderState) : Bool :=
  match st.circuit_open_until with
  | none => false
  | some t => decide (now < t)

/-- `MarketDataClient._register_success`: a fresh default state. -/
def registerSuccess : ProviderState := {}

/-- `MarketDataClient._register_failure`: bump the counter; at the
threshold open the circuit and reset the counter.  Note it takes no
retryability information at all. -/
def registerFailure (cfg : MarketClientConfig) (now : ℕ)
    (st : ProviderState) : ProviderState :=
  let failures := st.failures + 1
  if cfg.max_provider_failures ≤ failures then
    { failures := 0,
      circuit_open_until := some (now + cfg.circuit_cooldown_seconds) }
  else
    { failures := failures, circuit_open_until := st.circuit_open_until }

/-- The provider identity fields of the `MarketDataProvider` protocol. -/
structure Provider : Type where
  source_name : String
  supported_asset_classes : List AssetClass
deriving DecidableEq, Repr

/-- Outcome of one awaited `provider.fetch_ohlcv` call under
`asyncio.wait_for`: a returned snapshot, a raised exception carrying the
`DataSourceError` retryability flag (`str(exc) = msg`), or a timeout
(`str(TimeoutError()) = ""`). -/
inductive FetchOutcome : Type
  | ok (snapshot : MarketSnapshot)
  | raiseExc (msg : String) (retryable : Bool)
  | timeout
deriving DecidableEq, Repr

/-- Pointwise update of the `_provider_state` dict. -/
def updState (st : String → ProviderState) (name : String)
    (v : ProviderState) : String → ProviderState :=
  fun n => if n = name then v else st n

/-- Loop state of the provider traversal in
`MarketDataClient.get_trade_inputs`. -/
structure FetchAcc : Type where
  state : String → ProviderState
  successful : List MarketSnapshot
  failureReasons : List String

/-- One iteration of the provider loop in `get_trade_inputs`: skip on an
open circuit; otherwise a fresh snapshot is collected and the state reset,
while a stale snapshot, a raised exception (with either retryability
flag), or a timeout all fall to the same `except Exception` handler that
records a reason and calls `_register_failure`. -/
def processProvider (cfg : MarketClientConfig) (policy : DataFreshnessPolicy)
    (now : ℕ) (tf : Timeframe) (acc : FetchAcc)
    (pv : Provider × FetchOutcome) : FetchAcc :=
  let name := pv.1.source_name
  if isCircuitOpen now (acc.state name) then
    { acc with failureReasons := acc.failureReasons ++ [name ++ ": circuit_open"] }
  else
    match pv.2 with
    | .ok snapshot =>
        if isStale policy now snapshot tf then
          { state := updState acc.state name (registerFailure cfg now (acc.state name))
            successful := acc.successful
            failureReasons := acc.failureReasons ++ [name ++ ": snapshot is stale"] }
        else
          { state := updState acc.state name registerSuccess
            successful := acc.successful ++ [snapshot]
            failureReasons := acc.failureReasons }
    | .raiseExc msg _ =>
        { state := updState acc.state name (registerFailure cfg now (acc.state name))
          successful := acc.successful
          failureReasons := acc.failureReasons ++ [name ++ ": " ++ msg] }
    | .timeout =>
        { state := updState acc.state name (registerFailure cfg now (acc.state name))
          successful := acc.successful
          failureReasons := acc.failureReasons ++ [name ++ ": "] }

/-- `TradeInputBundle` dataclass. -/
structure TradeInputBundle : Type where
  asset : String
  timeframe : Timeframe
  primary : MarketSnapshot
  secondary : List MarketSnapshot
  consensus_close : ℚ
  price_spread_bps : ℚ
deriving DecidableEq, Repr

/-- `snapshot.candles[-1].close` (all successful snapshots have candles). -/
def lastClose (snapshot : MarketSnapshot) : ℚ :=
  ((snapshot.candles.getLast?).map (·.close)).getD 0

/-- `max(closes)` over a nonempty list. -/
def listMaxQ : List ℚ → ℚ
  | [] => 0
  | x :: xs => xs.foldl max x

/-- `min(closes)` over a nonempty list. -/
def listMinQ : List ℚ → ℚ
  | [] => 0
  | x :: xs => xs.foldl min x

/-- The body of `MarketDataClient.get_trade_inputs` after the asset-class
filter: provider traversal, sufficiency check, consensus and spread.
Returns the provider state after the call together with the result
(`Except.error` for the raised `RuntimeError`s and the `fmean([])` crash
on `min_sources = 0` with no successes). -/
def getTradeInputsFrom (cfg : MarketClientConfig)
    (policy : DataFreshnessPolicy) (now : ℕ) (asset : String)
    (tf : Timeframe) (min_sources : ℕ)
    (filtered : List (Provider × FetchOutcome))
    (state₀ : String → ProviderState) :
    (String → ProviderState) × Except String TradeInputBundle :=
  if filtered = [] then
    (state₀, .error "No providers configured for asset_class.")
  else
    let acc := filtered.foldl (processProvider cfg policy now tf)
      { state := state₀, successful := [], failureReasons := [] }
    if acc.successful.length < min_sources then
      (acc.state, .error
        ("Unable to gather market data from enough sources: " ++
          String.intercalate "; " acc.failureReasons))
    else
      match acc.successful with
      | [] => (acc.state, .error "StatisticsError: fmean requires at least one data point")
      | primary :: rest =>
          let closes := (primary :: rest).map lastClose
          let consensus_close := closes.sum / (closes.length : ℚ)
          let spread_bps :=
            if closes.length ≤ 1 ∨ consensus_close = 0 then 0
            else ((listMaxQ closes - listMinQ closes) / consensus_close) * 10000
          (acc.state, .ok
            { asset := asset, timeframe := tf, primary := primary,
              secondary := rest, consensus_close := consensus_close,
              price_spread_bps := spread_bps })

/-- `MarketDataClient.get_trade_inputs`, with each candidate provider
paired with the outcome of its awaited fetch, and the `_provider_state`
dict threaded explicitly. -/
def getTradeInputs (cfg : MarketClientConfig) (policy : DataFreshnessPolicy)
    (now : ℕ) (asset : String) (tf : Timeframe) (asset_class : AssetClass)
    (min_sources : ℕ) (providers : List (Provider × FetchOutcome))
    (state₀ : String → ProviderState) :
    (String → ProviderState) × Except String TradeInputBundle :=
  getTradeInputsFrom cfg policy now asset tf min_sources
    (providers.filter
      (fun pv => decide (asset_class ∈ pv.1.supported_asset_classes)))
    state₀

/-- Outcomes that differ at most in the retryability flag of a raised
`DataSourceError`. -/
def sameUpToRetryFlag : FetchOutcome → FetchOutcome → Prop :=
  fun o₁ o₂ =>
    match o₁, o₂ with
    | .raiseExc m₁ _, .raiseExc m₂ _ => m₁ = m₂
    | a, b => a = b

/-- The Alpaca provider identity used in the C6 counterexample. -/
def alpacaProvider : Provider :=
  { source_name := "alpaca", supported_asset_classes := [.equity, .etf] }

/-- All-fresh provider state (every counter 0, every circuit closed). -/
def freshStates : String → ProviderState := fun _ => {}

end Trading

/-- Helper: `processProvider` ignores the retryability flag of a raised
error (and is pointwise invariant under `sameUpToRetryFlag`). -/
theorem processProvider_retry_flag_irrelevant
    (cfg : Trading.MarketClientConfig) (policy : Trading.DataFreshnessPolicy)
    (now : ℕ) (tf : Trading.Timeframe) (acc : Trading.FetchAcc)
    (p : Trading.Provider) (o₁ o₂ : Trading.FetchOutcome)
    (h : Trading.sameUpToRetryFlag o₁ o₂) :
    Trading.processProvider cfg policy now tf acc (p, o₁) =
      Trading.processProvider cfg policy now tf acc (p, o₂) := by
  cases o₁ <;> cases o₂ <;>
    simp only [Trading.sameUpToRetryFlag] at h <;>
    first
      | rfl
      | (cases h; rfl)
      | simp_all

/-- Helper: folding the provider loop over outcome lists that agree up to
retryability flags gives the same accumulator. -/
theorem foldl_processProvider_retry_flag_irrelevant
    (cfg : Trading.MarketClientConfig) (policy : Trading.DataFreshnessPolicy)
    (now : ℕ) (tf : Trading.Timeframe) :
    ∀ (l₁ l₂ : List (Trading.Provider × Trading.FetchOutcome)),
      List.Forall₂ (fun a b => a.1 = b.1 ∧ Trading.sameUpToRetryFlag a.2 b.2) l₁ l₂ →
      ∀ (acc : Trading.FetchAcc),
        l₁.foldl (Trading.processProvider cfg policy now tf) acc =
          l₂.foldl (Trading.processProvider cfg policy now tf) acc := by
  intro l₁ l₂ hf
  induction hf with
  | nil => intro acc; rfl
  | cons hab _ ih =>
      intro acc
      rename_i a b l₁' l₂' _
      simp only [List.foldl]
      have hstep : Trading.processProvider cfg policy now tf acc a =
          Trading.processProvider cfg policy now tf acc b := by
        obtain ⟨h1, h2⟩ := hab
        obtain ⟨pa, oa⟩ := a
        obtain ⟨pb, ob⟩ := b
        cases h1
        exact processProvider_retry_flag_irrelevant cfg policy now tf acc pa oa ob h2
      rw [hstep, ih]

/-- Helper: filtering by a predicate on the provider component preserves
the flag-agreement relation. -/
theorem filter_retry_flag_forall₂
    (q : Trading.Provider × Trading.FetchOutcome → Bool)
    (hq : ∀ a b, a.1 = b.1 → q a = q b) :
    ∀ (l₁ l₂ : List (Trading.Provider × Trading.FetchOutcome)),
      List.Forall₂ (fun a b => a.1 = b.1 ∧ Trading.sameUpToRetryFlag a.2 b.2) l₁ l₂ →
      List.Forall₂ (fun a b => a.1 = b.1 ∧ Trading.sameUpToRetryFlag a.2 b.2)
        (l₁.filter q) (l₂.filter q) := by
  intro l₁ l₂ hf
  induction hf with
  | nil => exact List.Forall₂.nil
  | cons hab htail ih =>
      rename_i a b l₁' l₂'
      simp only [List.filter]
      rw [hq a b hab.1]
      cases hqa : q b with
      | false => exact ih
      | true => exact List.Forall₂.cons hab ih

/-- Helper: the post-filter body of `get_trade_inputs` is invariant under
retryability-flag changes of raised errors. -/
theorem getTradeInputsFrom_retry_flag_irrelevant
    (cfg : Trading.MarketClientConfig) (policy : Trading.DataFreshnessPolicy)
    (now : ℕ) (asset : String) (tf : Trading.Timeframe) (ms : ℕ)
    (st₀ : String → Trading.ProviderState) :
    ∀ (f₁ f₂ : List (Trading.Provider × Trading.FetchOutcome)),
      List.Forall₂ (fun a b => a.1 = b.1 ∧ Trading.sameUpToRetryFlag a.2 b.2) f₁ f₂ →
      Trading.getTradeInputsFrom cfg policy now asset tf ms f₁ st₀ =
        Trading.getTradeInputsFrom cfg policy now asset tf ms f₂ st₀ := by
  intro f₁ f₂ hf
  cases hf with
  | nil => rfl
  | cons hab htail =>
      rename_i a b t₁ t₂
      have h := foldl_processProvider_retry_flag_irrelevant cfg policy now tf
        (a :: t₁) (b :: t₂) (List.Forall₂.cons hab htail)
      simp [Trading.getTradeInputsFrom, h]

/-- C6 counterexample: one supported provider fails with a
*source-terminal* error (`DataSourceError("Alpaca credentials are
missing.", retryable=False)`); after the `get_trade_inputs` call its
circuit-breaker consecutive-failure counter went from 0 to 1 — the
claim's "counter is not incremented" is false. -/
theorem terminal_failure_bumps_circuit_counter :
    (Trading.freshStates "alpaca").failures = 0 ∧
      ((Trading.getTradeInputs {} {} 1000 "SPY" .h1 .equity 1
          [(Trading.alpacaProvider,
            .raiseExc "Alpaca credentials are missing." false)]
          Trading.freshStates).1 "alpaca").failures = 1 := by
  constructor
  · rfl
  · with_unfolding_all rfl

/-- C6 amended: the circuit breaker of `get_trade_inputs` does not consult
retryability at all.  (1) The whole call result — final provider states
and returned bundle or error — is unchanged when the retryability flags of
raised provider errors are flipped arbitrarily; (2) every raised provider
error (terminal or transient) on a closed circuit registers a failure
(`_register_failure` on that provider's state) and contributes no
snapshot, only a failure reason.  The provider is still skipped for the
call in the sense that no snapshot of it is collected. -/
theorem getTradeInputs_counts_terminal_failures
    (cfg : Trading.MarketClientConfig) (policy : Trading.DataFreshnessPolicy)
    (now : ℕ) (asset : String) (tf : Trading.Timeframe)
    (asset_class : Trading.AssetClass) (ms : ℕ)
    (st₀ : String → Trading.ProviderState) :
    (∀ (l₁ l₂ : List (Trading.Provider × Trading.FetchOutcome)),
      List.Forall₂ (fun a b => a.1 = b.1 ∧ Trading.sameUpToRetryFlag a.2 b.2) l₁ l₂ →
      Trading.getTradeInputs cfg policy now asset tf asset_class ms l₁ st₀ =
        Trading.getTradeInputs cfg policy now asset tf asset_class ms l₂ st₀) ∧
    (∀ (acc : Trading.FetchAcc) (p : Trading.Provider) (msg : String) (b : Bool),
      Trading.isCircuitOpen now (acc.state p.source_name) = false →
      Trading.processProvider cfg policy now tf acc (p, .raiseExc msg b) =
        { state := Trading.updState acc.state p.source_name
            (Trading.registerFailure cfg now (acc.state p.source_name))
          successful := acc.successful
          failureReasons := acc.failureReasons ++ [p.source_name ++ ": " ++ msg] }) := by
  constructor
  · intro l₁ l₂ hf
    unfold Trading.getTradeInputs
    exact getTradeInputsFrom_retry_flag_irrelevant cfg policy now asset tf ms st₀ _ _
      (filter_retry_flag_forall₂ _ (fun a b h1 => by rw [h1]) l₁ l₂ hf)
  · intro acc p msg b hopen
    simp [Trading.processProvider, hopen]

/-- Witness for C6's amended theorem: flipping the terminal flag of the
missing-credentials error leaves the whole call result unchanged, and the
concrete failing provider registers a failure on the fresh state. -/
theorem getTradeInputs_counts_terminal_failures_witness :
    (Trading.getTradeInputs {} {} 1000 "SPY" .h1 .equity 1
        [(Trading.alpacaProvider,
          .raiseExc "Alpaca credentials are missing." false)]
        Trading.freshStates =
      Trading.getTradeInputs {} {} 1000 "SPY" .h1 .equity 1
        [(Trading.alpacaProvider,
          .raiseExc "Alpaca credentials are missing." true)]
        Trading.freshStates) ∧
    Trading.processProvider {} {} 1000 .h1
        { state := Trading.freshStates, successful := [], failureReasons := [] }
        (Trading.alpacaProvider,
          .raiseExc "Alpaca credentials are missing." false) =
      { state := Trading.updState Trading.freshStates
          Trading.alpacaProvider.source_name
          (Trading.registerFailure {} 1000
            (Trading.freshStates Trading.alpacaProvider.source_name))
        successful := []
        failureReasons := [Trading.alpacaProvider.source_name ++ ": " ++
          "Alpaca credentials are missing."] } :=
  ⟨(getTradeInputs_counts_terminal_failures {} {} 1000 "SPY" .h1 .equity 1
      Trading.freshStates).1 _ _
      (List.Forall₂.cons ⟨rfl, rfl⟩ List.Forall₂.nil),
    (getTradeInputs_counts_terminal_failures {} {} 1000 "SPY" .h1 .equity 1
      Trading.freshStates).2
      { state := Trading.freshStates, successful := [], failureReasons := [] }
      Trading.alpacaProvider "Alpaca credentials are missing." false rfl⟩

namespace Trading

/-! ### Evaluator (`training/evaluator.py`) -/

/-- `EvaluationMetrics` model (regime accuracy as a dict with possibly
missing regime keys, read through `.get(regime, 0.0)`). -/
structure EvaluationMetrics : Type where
  signal_accuracy : ℚ
  abstain_rate : ℚ
  brier_score : ℚ
  regime_accuracy : MarketRegime → Option ℚ
  consistency_variance : ℚ

/-- `PromotionDecision` model. -/
structure PromotionDecision : Type where
  approved : Bool
  reasons : List String
deriving DecidableEq, Repr

/-- `metrics.regime_accuracy.get(regime, 0.0)`. -/
def regimeGet (m : MarketRegime → Option ℚ) (r : MarketRegime) : ℚ :=
  (m r).getD 0

/-- Regime value rendered into the f-string reason. -/
def regimeName : MarketRegime → String
  | .trending_bull => "trending_bull"
  | .trending_bear => "trending_bear"
  | .mean_reverting => "mean_reverting"
  | .high_volatility => "high_volatility"

/-- Digits of a decimal run parsed to a natural (`int(match.group(1))`). -/
def digitsToNat (cs : List Char) : ℕ :=
  cs.foldl (fun acc c => acc * 10 + (c.toNat - 48)) 0

/-- The first contiguous run of decimal digits, scanning left to right
(`re.search(r"(\d+)", value)`). -/
def firstDigitRun : List Char → Option (List Char)
  | [] => none
  | c :: rest =>
      if c.isDigit then some (c :: rest.takeWhile Char.isDigit)
      else firstDigitRun rest

/-- `Evaluator._extract_numeric_version`: first contiguous decimal
integer of the string, `-1` when there is none. -/
def extractNumericVersion (s : String) : ℤ :=
  match firstDigitRun s.toList with
  | none => -1
  | some run => (digitsToNat run : ℤ)

/-- `Evaluator._is_newer_dataset`. -/
def isNewerDataset (candidate champion : String) : Bool :=
  decide (extractNumericVersion champion < extractNumericVersion candidate)

/-- `if cond: failures.append(msg)` rendered as a list fragment. -/
def iteList (c : Prop) [Decidable c] (s : String) : List String :=
  if c then [s] else []

/-- `Evaluator.evaluate_promotion` from `training/evaluator.py`: the six
checks append reason strings in source order (the regime check appends one
string per degraded regime); `approved = not failures`. -/
def evaluatePromotion (champion candidate : EvaluationMetrics)
    (champion_dataset_version candidate_dataset_version : String) :
    PromotionDecision :=
  let failures :=
    iteList (candidate.signal_accuracy - champion.signal_accuracy < 1/50)
      "Signal accuracy improvement is below 2%." ++
    iteList (champion.brier_score < candidate.brier_score)
      "Brier score degraded versus champion." ++
    iteList (¬ (3/20 ≤ candidate.abstain_rate ∧ candidate.abstain_rate ≤ 2/5))
      "Candidate abstain rate is outside healthy 15%-40% range." ++
    REGIMES.filterMap (fun regime =>
      if 1/20 < regimeGet champion.regime_accuracy regime -
          regimeGet candidate.regime_accuracy regime then
        some ("Regime degradation exceeds 5% for " ++ regimeName regime ++ ".")
      else none) ++
    iteList (1/20 ≤ candidate.consistency_variance)
      "Candidate consistency variance is not stable (<0.05 required)." ++
    iteList (isNewerDataset candidate_dataset_version champion_dataset_version = false)
      "Candidate dataset_version must be newer than champion."
  { approved := failures.isEmpty, reasons := failures }

/-- The claim's reading of the six promotion criteria, each criterion one
proposition (criterion 4 quantified over all regimes). -/
def claimCriteria (champion candidate : EvaluationMetrics)
    (champion_dataset_version candidate_dataset_version : String) :
    Prop :=
  1/50 ≤ candidate.signal_accuracy - champion.signal_accuracy ∧
  candidate.brier_score ≤ champion.brier_score ∧
  (3/20 ≤ candidate.abstain_rate ∧ candidate.abstain_rate ≤ 2/5) ∧
  (∀ r ∈ REGIMES,
    regimeGet champion.regime_accuracy r - regimeGet candidate.regime_accuracy r
      ≤ 1/20) ∧
  candidate.consistency_variance < 1/20 ∧
  extractNumericVersion champion_dataset_version <
    extractNumericVersion candidate_dataset_version

/-- The number of the claim's six criteria that fail (the regime criterion
counting as a single criterion, as the claim words it). -/
def claimFailedCriteria (champion candidate : EvaluationMetrics)
    (champion_dataset_version candidate_dataset_version : String) : ℕ :=
  (if 1/50 ≤ candidate.signal_accuracy - champion.signal_accuracy then 0 else 1) +
  (if candidate.brier_score ≤ champion.brier_score then 0 else 1) +
  (if 3/20 ≤ candidate.abstain_rate ∧ candidate.abstain_rate ≤ 2/5 then 0 else 1) +
  (if ∀ r ∈ REGIMES,
      regimeGet champion.regime_accuracy r - regimeGet candidate.regime_accuracy r
        ≤ 1/20 then 0 else 1) +
  (if candidate.consistency_variance < 1/20 then 0 else 1) +
  (if extractNumericVersion champion_dataset_version <
      extractNumericVersion candidate_dataset_version then 0 else 1)

/-- Champion metrics of the C8 counterexample. -/
def championTwoRegimes : EvaluationMetrics :=
  { signal_accuracy := 7/10, abstain_rate := 11/50, brier_score := 1/5,
    regime_accuracy := fun r =>
      match r with
      | .trending_bull => some (7/10)
      | .trending_bear => some (7/10)
      | .mean_reverting => some (1/2)
      | .high_volatility => some (1/2)
    consistency_variance := 3/100 }

/-- Candidate metrics of the C8 counterexample: passes criteria 1,2,3,5,6
but degrades two regimes by 0.10 each. -/
def candidateTwoRegimes : EvaluationMetrics :=
  { signal_accuracy := 73/100, abstain_rate := 1/5, brier_score := 19/100,
    regime_accuracy := fun r =>
      match r with
      | .trending_bull => some (6/10)
      | .trending_bear => some (6/10)
      | .mean_reverting => some (1/2)
      | .high_volatility => some (1/2)
    consistency_variance := 1/100 }

end Trading

/-- Helper: length of an if-guarded singleton fragment. -/
theorem iteList_length (c : Prop) [Decidable c] (s : String) :
    (Trading.iteList c s).length = if c then 1 else 0 := by
  by_cases h : c <;> simp [Trading.iteList, h]

/-- Helper: an if-guarded singleton fragment is empty iff its guard
fails. -/
theorem iteList_eq_nil (c : Prop) [Decidable c] (s : String) :
    Trading.iteList c s = [] ↔ ¬ c := by
  by_cases h : c <;> simp [Trading.iteList, h]

/-- Helper: length of a filterMap of if-guarded somes is the count of
passing elements. -/
theorem length_filterMap_ite {α β : Type} (l : List α) (p : α → Prop)
    [DecidablePred p] (g : α → β) :
    (l.filterMap (fun a => if p a then some (g a) else none)).length =
      l.countP (fun a => decide (p a)) := by
  induction l with
  | nil => rfl
  | cons x xs ih =>
      by_cases h : p x <;>
        simp [List.filterMap_cons, h, ih, List.countP_cons]

/-- Helper: a filterMap of if-guarded somes is empty iff no element
passes. -/
theorem filterMap_ite_eq_nil {α β : Type} (l : List α) (p : α → Prop)
    [DecidablePred p] (g : α → β) :
    l.filterMap (fun a => if p a then some (g a) else none) = [] ↔
      ∀ a ∈ l, ¬ p a := by
  rw [List.filterMap_eq_nil_iff]
  constructor
  · intro h a ha hpa
    have := h a ha
    rw [if_pos hpa] at this
    cases this
  · intro h a ha
    rw [if_neg (h a ha)]

/-- C8 counterexample: with two regimes each degraded by 0.10 and every
other criterion passing, exactly one of the six criteria fails but the
decision carries two reason strings (one per degraded regime) — "each
failed criterion contributes exactly one reason string" is false. -/
theorem evaluatePromotion_two_reasons_one_criterion :
    Trading.claimFailedCriteria Trading.championTwoRegimes
        Trading.candidateTwoRegimes "v10" "v11" = 1 ∧
      (Trading.evaluatePromotion Trading.championTwoRegimes
          Trading.candidateTwoRegimes "v10" "v11").reasons.length = 2 ∧
      (Trading.evaluatePromotion Trading.championTwoRegimes
          Trading.candidateTwoRegimes "v10" "v11").approved = false := by
  refine ⟨?_, ?_, ?_⟩ <;> with_unfolding_all decide

/-- C8 amended: `evaluate_promotion` approves iff all six criteria hold
(signal accuracy up by at least 0.02, Brier not degraded, abstain rate in
[0.15, 0.40], no regime degraded by more than 0.05, consistency variance
below 0.05, candidate's first numeric dataset version strictly greater,
missing numeric read as -1); criteria 1, 2, 3, 5, 6 each contribute
exactly one reason string on failure, while the regime criterion
contributes one reason string per degraded regime. -/
theorem evaluatePromotion_criteria_and_reasons
    (champion candidate : Trading.EvaluationMetrics)
    (champion_dataset_version candidate_dataset_version : String) :
    ((Trading.evaluatePromotion champion candidate
        champion_dataset_version candidate_dataset_version).approved = true ↔
      Trading.claimCriteria champion candidate
        champion_dataset_version candidate_dataset_version) ∧
    (Trading.evaluatePromotion champion candidate
        champion_dataset_version candidate_dataset_version).reasons.length =
      (if candidate.signal_accuracy - champion.signal_accuracy < 1/50 then 1 else 0) +
      (if champion.brier_score < candidate.brier_score then 1 else 0) +
      (if ¬ (3/20 ≤ candidate.abstain_rate ∧ candidate.abstain_rate ≤ 2/5)
        then 1 else 0) +
      Trading.REGIMES.countP (fun r =>
        decide (1/20 < Trading.regimeGet champion.regime_accuracy r -
          Trading.regimeGet candidate.regime_accuracy r)) +
      (if 1/20 ≤ candidate.consistency_variance then 1 else 0) +
      (if Trading.isNewerDataset candidate_dataset_version
          champion_dataset_version = false then 1 else 0) := by
  constructor
  · unfold Trading.evaluatePromotion Trading.claimCriteria
    simp only [List.isEmpty_iff, List.append_eq_nil, iteList_eq_nil,
      filterMap_ite_eq_nil, Trading.isNewerDataset, Bool.not_eq_false,
      decide_eq_true_eq, not_lt, not_le, not_not]
    tauto
  · unfold Trading.evaluatePromotion
    simp only [List.length_append, iteList_length, length_filterMap_ite]

/-- Witness for C8's amended theorem at the counterexample metrics. -/
theorem evaluatePromotion_criteria_and_reasons_witness :
    (((Trading.evaluatePromotion Trading.championTwoRegimes
        Trading.candidateTwoRegimes "v10" "v11").approved = true ↔
      Trading.claimCriteria Trading.championTwoRegimes
        Trading.candidateTwoRegimes "v10" "v11") ∧
    (Trading.evaluatePromotion Trading.championTwoRegimes
        Trading.candidateTwoRegimes "v10" "v11").reasons.length =
      (if Trading.candidateTwoRegimes.signal_accuracy -
          Trading.championTwoRegimes.signal_accuracy < 1/50 then 1 else 0) +
      (if Trading.championTwoRegimes.brier_score <
          Trading.candidateTwoRegimes.brier_score then 1 else 0) +
      (if ¬ (3/20 ≤ Trading.candidateTwoRegimes.abstain_rate ∧
          Trading.candidateTwoRegimes.abstain_rate ≤ 2/5) then 1 else 0) +
      Trading.REGIMES.countP (fun r =>
        decide (1/20 < Trading.regimeGet
            Trading.championTwoRegimes.regime_accuracy r -
          Trading.regimeGet Trading.candidateTwoRegimes.regime_accuracy r)) +
      (if 1/20 ≤ Trading.candidateTwoRegimes.consistency_variance
        then 1 else 0) +
      (if Trading.isNewerDataset "v11" "v10" = false then 1 else 0)) :=
  evaluatePromotion_criteria_and_reasons Trading.championTwoRegimes
    Trading.candidateTwoRegimes "v10" "v11"

namespace Trading

/-! ### Dataset builder (`training/dataset_builder.py`)

The builder's randomness (`random.Random(seed).choices` with recency
weights) lives in the Python standard library; as stated in the file
header it is modelled by an oracle stream of naturals, one per draw,
picking index `n % pool.length` of the timestamp-sorted pool — every pool
element carries positive weight, so these are exactly the draws the real
generator can produce.  The filesystem lock (`holdout_lock.json`) is
threaded as an explicit `Option (List ℕ)` of test record ids. -/

/-- Base-2 logarithm with explicit fuel, peeling one bit per step (always
called with enough fuel; structural recursion keeps reduction shallow
where `Nat.log2`'s well-founded recursion is opaque to the kernel). -/
def log2With : ℕ → ℕ → ℕ
  | 0, _ => 0
  | fuel + 1, n => if n ≤ 1 then 0 else log2With fuel (n / 2) + 1

/-- Base-2 logarithm (equal to `Nat.log2`; see `nlog2_eq`). -/
def nlog2 (n : ℕ) : ℕ := log2With n n

theorem log2With_eq (fuel n : ℕ) (h : n < 2 ^ (fuel + 1)) :
    log2With fuel n = Nat.log2 n := by
  induction fuel generalizing n with
  | zero =>
      unfold log2With
      have h1 : n ≤ 1 := by omega
      rw [Nat.log2]
      rw [if_neg (by omega)]
  | succ fuel ih =>
      unfold log2With
      by_cases hs : n ≤ 1
      · rw [if_pos hs, Nat.log2, if_neg (by omega)]
      · rw [if_neg hs]
        have hdiv : n / 2 < 2 ^ (fuel + 1) := by
          rw [Nat.div_lt_iff_lt_mul (by norm_num)]
          calc n < 2 ^ (fuel + 2) := h
            _ = 2 ^ (fuel + 1) * 2 := by ring
        rw [ih _ hdiv]
        conv_rhs => rw [Nat.log2]
        rw [if_pos (by omega)]

theorem nlog2_eq (n : ℕ) : nlog2 n = Nat.log2 n := by
  unfold nlog2
  exact log2With_eq n n (by
    calc n < 2 ^ n := Nat.lt_two_pow n
      _ ≤ 2 ^ (n + 1) := Nat.pow_le_pow_right (by norm_num) (by omega))

/-- Exponent of a positive fraction `n / d`: the `e` with
`2^e ≤ n/d < 2^(e+1)`, computed from integer base-2 logarithms (the
formula does not depend on the chosen representation of the fraction). -/
def pairExp (n d : ℕ) : ℤ :=
  if d * 2 ^ nlog2 n ≤ n * 2 ^ nlog2 d then (nlog2 n : ℤ) - nlog2 d
  else (nlog2 n : ℤ) - nlog2 d - 1

/-- Round `num/den` to the nearest natural, ties to even. -/
def roundNearestEvenInt (num den : ℕ) : ℕ :=
  if 2 * (num % den) < den then num / den
  else if den < 2 * (num % den) then num / den + 1
  else if (num / den) % 2 = 0 then num / den else num / den + 1

/-- Binary64 rounding (round to nearest, ties to even, 53-bit significand,
unbounded exponent) of the nonnegative fraction `n / d`, returned as an
unreduced numerator-denominator pair whose denominator is a power of two. -/
def roundPair (n d : ℕ) : ℕ × ℕ :=
  if n = 0 then (0, 1)
  else
    (roundNearestEvenInt (n * 2 ^ ((52 - pairExp n d).toNat))
        (d * 2 ^ ((pairExp n d - 52).toNat)) * 2 ^ ((pairExp n d - 52).toNat),
      2 ^ ((52 - pairExp n d).toNat))

/-- Binary64 product `fl(r * B)` for a nonnegative rational `r` and a
natural `B`, as a fraction pair. -/
def fmulPair (r : ℚ) (B : ℕ) : ℕ × ℕ := roundPair (r.num.toNat * B) r.den

/-- Binary64 difference `fl(1 - r)` for a rational `0 ≤ r ≤ 1`, as a
fraction pair. -/
def fsubOnePair (r : ℚ) : ℕ × ℕ := roundPair (r.den - r.num.toNat) r.den

/-- Binary64 quotient `fl(p / q)` of two nonnegative fraction pairs. -/
def fdivPair (p q : ℕ × ℕ) : ℕ × ℕ := roundPair (p.1 * q.2) (p.2 * q.1)

/-- Ceiling of the nonnegative fraction `p`. -/
def ceilPair (p : ℕ × ℕ) : ℕ := (p.1 + p.2 - 1) / p.2

theorem pairExp_eq_log2 (n d : ℕ) :
    pairExp n d = (if d * 2 ^ n.log2 ≤ n * 2 ^ d.log2 then (n.log2 : ℤ) - d.log2
      else (n.log2 : ℤ) - d.log2 - 1) := by
  unfold pairExp
  rw [nlog2_eq, nlog2_eq]

theorem two_zpow_pairExp_le (n d : ℕ) (hn : n ≠ 0) (hd : 0 < d) :
    (2 : ℚ) ^ pairExp n d ≤ (n : ℚ) / d := by
  rw [pairExp_eq_log2]
  set a := n.log2 with ha
  set b := d.log2 with hb
  by_cases hc : d * 2 ^ a ≤ n * 2 ^ b
  · rw [if_pos hc]
    rw [le_div_iff₀ (by exact_mod_cast hd : (0:ℚ) < (d : ℚ))]
    rw [zpow_sub₀ (two_ne_zero : (2:ℚ) ≠ 0)]
    rw [div_mul_eq_mul_div, div_le_iff₀ (by positivity)]
    have hcq : (d : ℚ) * 2 ^ a ≤ (n : ℚ) * 2 ^ b := by exact_mod_cast hc
    calc (2:ℚ) ^ (a:ℤ) * (d:ℚ) = (d:ℚ) * 2 ^ (a:ℕ) := by
          rw [zpow_natCast]; ring
      _ ≤ (n:ℚ) * 2 ^ (b:ℕ) := hcq
      _ = (n:ℚ) * 2 ^ ((b:ℕ):ℤ) := by rw [zpow_natCast]
  · rw [if_neg hc]
    have h1 : ((2 : ℚ) ^ (a:ℕ)) ≤ (n : ℚ) := by
      exact_mod_cast Nat.log2_self_le hn
    have h2 : (d : ℚ) < 2 ^ ((b:ℕ) + 1) := by
      exact_mod_cast Nat.lt_log2_self
    have heq : (2 : ℚ) ^ ((a : ℤ) - b - 1) =
        (2 : ℚ) ^ (a:ℕ) / (2 : ℚ) ^ ((b:ℕ) + 1) := by
      rw [show ((a : ℤ) - b - 1) = (a : ℤ) - ((b : ℤ) + 1) by ring,
        zpow_sub₀ (two_ne_zero : (2:ℚ) ≠ 0)]
      norm_cast
    rw [heq]
    exact div_le_div (by positivity) h1 (by exact_mod_cast hd) h2.le

theorem roundNearestEvenInt_ge (num den : ℕ) (hd : 0 < den) :
    (num : ℚ) / (den : ℚ) - 1 / 2 ≤ (roundNearestEvenInt num den : ℚ) := by
  have hmod := Nat.div_add_mod num den
  have hdq : (0 : ℚ) < (den : ℚ) := by exact_mod_cast hd
  have hnum : (num : ℚ) = (den : ℚ) * ((num / den : ℕ) : ℚ) + ((num % den : ℕ) : ℚ) := by
    exact_mod_cast hmod.symm
  have hr : ((num % den : ℕ) : ℚ) < (den : ℚ) := by
    exact_mod_cast Nat.mod_lt num hd
  unfold roundNearestEvenInt
  by_cases h1 : 2 * (num % den) < den
  · rw [if_pos h1]
    have h1q : 2 * ((num % den : ℕ) : ℚ) ≤ (den : ℚ) := by exact_mod_cast h1.le
    rw [div_sub' _ _ _ (ne_of_gt hdq), div_le_iff₀ hdq]
    nlinarith [hnum]
  · rw [if_neg h1]
    have h1q : (den : ℚ) ≤ 2 * ((num % den : ℕ) : ℚ) := by
      exact_mod_cast not_lt.mp h1
    by_cases h2 : den < 2 * (num % den)
    · rw [if_pos h2]
      push_cast
      rw [div_sub' _ _ _ (ne_of_gt hdq), div_le_iff₀ hdq]
      nlinarith [hnum]
    · rw [if_neg h2]
      have h2q : 2 * ((num % den : ℕ) : ℚ) ≤ (den : ℚ) := by
        exact_mod_cast not_lt.mp h2
      by_cases h3 : (num / den) % 2 = 0
      · rw [if_pos h3]
        rw [div_sub' _ _ _ (ne_of_gt hdq), div_le_iff₀ hdq]
        nlinarith [hnum]
      · rw [if_neg h3]
        push_cast
        rw [div_sub' _ _ _ (ne_of_gt hdq), div_le_iff₀ hdq]
        nlinarith [hnum]

theorem scaled_div_eq (n d : ℕ) (e : ℤ) (hd : 0 < d) :
    ((n * 2 ^ ((52 - e).toNat) : ℕ) : ℚ) / ((d * 2 ^ ((e - 52).toNat) : ℕ) : ℚ) =
      ((n : ℚ) / (d : ℚ)) * (2 : ℚ) ^ ((52 : ℤ) - e) := by
  by_cases he : e ≤ 52
  · have h1 : ((52 - e).toNat : ℤ) = 52 - e := Int.toNat_of_nonneg (by omega)
    have h2 : (e - 52).toNat = 0 := by omega
    rw [h2]
    push_cast
    rw [show ((2 : ℚ) ^ ((52 - e).toNat)) = (2 : ℚ) ^ (((52 - e).toNat : ℤ)) by
      rw [zpow_natCast], h1]
    rw [mul_one]
    ring
  · have h1 : (52 - e).toNat = 0 := by omega
    have h2 : ((e - 52).toNat : ℤ) = e - 52 := Int.toNat_of_nonneg (by omega)
    rw [h1]
    push_cast
    rw [show ((2 : ℚ) ^ ((e - 52).toNat)) = (2 : ℚ) ^ (((e - 52).toNat : ℤ)) by
      rw [zpow_natCast], h2]
    rw [show (52 : ℤ) - e = -(e - 52) by ring, zpow_neg]
    rw [mul_one]
    have hp : ((2 : ℚ) ^ (e - 52)) ≠ 0 := zpow_ne_zero _ two_ne_zero
    have hd0 : (d : ℚ) ≠ 0 := by positivity
    field_simp

theorem pair_value_eq (M : ℕ) (e : ℤ) :
    ((M * 2 ^ ((e - 52).toNat) : ℕ) : ℚ) / ((2 ^ ((52 - e).toNat) : ℕ) : ℚ) =
      (M : ℚ) * (2 : ℚ) ^ (e - 52) := by
  by_cases he : 52 ≤ e
  · have h1 : (52 - e).toNat = 0 := by omega
    have h2 : ((e - 52).toNat : ℤ) = e - 52 := Int.toNat_of_nonneg (by omega)
    rw [h1]
    push_cast
    rw [show ((2 : ℚ) ^ ((e - 52).toNat)) = (2 : ℚ) ^ (((e - 52).toNat : ℤ)) by
      rw [zpow_natCast], h2]
    norm_num
  · have h1 : (e - 52).toNat = 0 := by omega
    have h2 : ((52 - e).toNat : ℤ) = 52 - e := Int.toNat_of_nonneg (by omega)
    rw [h1]
    push_cast
    rw [show ((2 : ℚ) ^ ((52 - e).toNat)) = (2 : ℚ) ^ (((52 - e).toNat : ℤ)) by
      rw [zpow_natCast], h2]
    rw [show (e - 52 : ℤ) = -(52 - e) by ring, zpow_neg]
    rw [mul_one, div_eq_mul_inv]

theorem roundPair_den_pos (n d : ℕ) : 0 < (roundPair n d).2 := by
  unfold roundPair
  by_cases hn : n = 0
  · rw [if_pos hn]
    norm_num
  · rw [if_neg hn]
    positivity

theorem roundPair_ge (n d : ℕ) (hd : 0 < d) :
    (n : ℚ) / d - ((n : ℚ) / d) / 2 ^ 52 ≤
      ((roundPair n d).1 : ℚ) / ((roundPair n d).2 : ℚ) := by
  by_cases hn : n = 0
  · subst hn
    norm_num [roundPair]
  · have hx : (0 : ℚ) < (n : ℚ) / d := by
      apply div_pos
      · exact_mod_cast Nat.pos_of_ne_zero hn
      · exact_mod_cast hd
    unfold roundPair
    rw [if_neg hn]
    dsimp only
    rw [pair_value_eq]
    set e := pairExp n d with he
    have hden : 0 < d * 2 ^ ((e - 52).toNat) := by positivity
    have hM := roundNearestEvenInt_ge (n * 2 ^ ((52 - e).toNat))
      (d * 2 ^ ((e - 52).toNat)) hden
    rw [scaled_div_eq _ _ _ hd] at hM
    have hpow : (0 : ℚ) < (2 : ℚ) ^ (e - 52) := by positivity
    have hstep := mul_le_mul_of_nonneg_right hM hpow.le
    have hE : (1 : ℚ) / 2 * (2 : ℚ) ^ (e - 52) = (2 : ℚ) ^ (e - 53) := by
      rw [show (1 : ℚ) / 2 = (2 : ℚ) ^ (-1 : ℤ) by norm_num,
        ← zpow_add₀ (two_ne_zero : (2:ℚ) ≠ 0)]
      congr 1
      ring
    have hcollapse : ((n : ℚ) / d * (2 : ℚ) ^ ((52 : ℤ) - e) - 1 / 2) *
        (2 : ℚ) ^ (e - 52) = (n : ℚ) / d - (2 : ℚ) ^ (e - 53) := by
      rw [sub_mul, mul_assoc, ← zpow_add₀ (two_ne_zero : (2:ℚ) ≠ 0)]
      rw [show (52 : ℤ) - e + (e - 52) = 0 by ring, zpow_zero, mul_one, hE]
    rw [hcollapse] at hstep
    have hle : (2 : ℚ) ^ (e - 53) ≤ ((n : ℚ) / d) / 2 ^ 52 := by
      have h2e := two_zpow_pairExp_le n d hn hd
      have heq : (2 : ℚ) ^ (e - 53) = (2 : ℚ) ^ e / 2 ^ (53 : ℕ) := by
        rw [zpow_sub₀ (two_ne_zero : (2:ℚ) ≠ 0)]
        norm_num
      rw [heq]
      have s1 : (2 : ℚ) ^ e / 2 ^ (53:ℕ) ≤ ((n : ℚ) / d) / 2 ^ (53:ℕ) :=
        (div_le_div_right (by positivity)).mpr h2e
      have s2 : ((n : ℚ) / d) / (2:ℚ) ^ (53:ℕ) ≤ ((n : ℚ) / d) / 2 ^ 52 :=
        div_le_div_of_nonneg_left hx.le (by positivity) (by norm_num)
      linarith
    linarith

theorem nat_ceil_div_ge (n d : ℕ) (hd : 0 < d) :
    (n : ℚ) / d ≤ (((n + d - 1) / d : ℕ) : ℚ) := by
  have hdq : (0 : ℚ) < (d : ℚ) := by exact_mod_cast hd
  have hmod := Nat.div_add_mod (n + d - 1) d
  have hlt : (n + d - 1) % d < d := Nat.mod_lt _ hd
  have h1 : 1 ≤ n + d := by omega
  have hmodq : (d : ℚ) * (((n + d - 1) / d : ℕ) : ℚ) +
      (((n + d - 1) % d : ℕ) : ℚ) = (n : ℚ) + (d : ℚ) - 1 := by
    have h2 : ((n + d - 1 : ℕ) : ℚ) = (n : ℚ) + (d : ℚ) - 1 := by
      push_cast [h1]
      ring
    rw [← h2]
    exact_mod_cast hmod
  have hle2 : (n + d - 1) % d + 1 ≤ d := hlt
  have hltq2 : (((n + d - 1) % d : ℕ) : ℚ) + 1 ≤ (d : ℚ) := by exact_mod_cast hle2
  rw [div_le_iff₀ hdq]
  nlinarith [hmodq, hltq2]

theorem replay_pair_lower (B : ℕ) (hB : B ≤ 2 ^ 40) :
    3 * B ≤ 7 * ceilPair (fdivPair
      (roundPair (5404319552844595 * B) 18014398509481984)
      (6305039478318694, 9007199254740992)) := by
  unfold fdivPair ceilPair
  dsimp only
  set p := roundPair (5404319552844595 * B) 18014398509481984 with hp
  have hp2 : 0 < p.2 := roundPair_den_pos _ _
  have hplow := roundPair_ge (5404319552844595 * B) 18014398509481984 (by norm_num)
  set q := roundPair (p.1 * 9007199254740992) (p.2 * 6305039478318694) with hq
  have hq2 : 0 < q.2 := roundPair_den_pos _ _
  have hqlow := roundPair_ge (p.1 * 9007199254740992) (p.2 * 6305039478318694)
    (Nat.mul_pos hp2 (by norm_num))
  have hk := nat_ceil_div_ge q.1 q.2 hq2
  have hBq : (B : ℚ) ≤ 2 ^ 40 := by exact_mod_cast hB
  have hB0 : (0 : ℚ) ≤ (B : ℚ) := by positivity
  have hA0 : (0 : ℚ) ≤ (p.1 : ℚ) / (p.2 : ℚ) := by positivity
  push_cast at hplow hqlow
  rw [mul_div_mul_comm] at hqlow
  have hfin : 3 * (B : ℚ) - 1 <
      7 * (((q.1 + q.2 - 1) / q.2 : ℕ) : ℚ) := by
    linarith [hplow, hqlow, hk, hBq, hB0, hA0]
  by_contra hcon
  push_neg at hcon
  have hc1 : 7 * ((q.1 + q.2 - 1) / q.2) + 1 ≤ 3 * B := by omega
  have hc2 : 7 * (((q.1 + q.2 - 1) / q.2 : ℕ) : ℚ) + 1 ≤ 3 * (B : ℚ) := by
    exact_mod_cast hc1
  linarith [hfin, hc2]

/-- Binary-point exponent of a positive rational. -/
def roundExp (x : ℚ) : ℤ := pairExp x.num.toNat x.den

/-- Round a positive rational to 53 significant bits (round to nearest,
ties to even). -/
def roundPos (x : ℚ) : ℚ :=
  (roundNearestEvenInt (x.num.toNat * 2 ^ ((52 - roundExp x).toNat))
      (x.den * 2 ^ ((roundExp x - 52).toNat)) : ℚ) *
    (2 : ℚ) ^ (roundExp x - 52)

/-- Rounding of a rational to IEEE-754 binary64 (round to nearest, ties to
even), with unbounded exponent. -/
def roundDouble (x : ℚ) : ℚ :=
  if x = 0 then 0
  else if x < 0 then -roundPos (-x)
  else roundPos x

theorem roundDouble_point_three :
    roundDouble (3/10) = Rat.divInt 5404319552844595 18014398509481984 := by
  unfold roundDouble
  rw [if_neg (by norm_num), if_neg (by norm_num)]
  unfold roundPos
  have hexp : roundExp (3/10 : ℚ) = -2 := by with_unfolding_all decide
  rw [hexp]
  have hnum3 : (3/10 : ℚ).num.toNat = 3 := by with_unfolding_all decide
  have hden10 : (3/10 : ℚ).den = 10 := by with_unfolding_all decide
  rw [hnum3, hden10]
  rw [show ((52 : ℤ) - -2).toNat = 54 by decide, show ((-2 : ℤ) - 52).toNat = 0 by decide]
  have hM : roundNearestEvenInt (3 * 2 ^ 54) (10 * 2 ^ 0) = 5404319552844595 := by
    with_unfolding_all decide
  rw [hM]
  rw [Rat.divInt_eq_div]
  rw [show (-2 - 52 : ℤ) = -(54 : ℕ) by norm_num, zpow_neg, zpow_natCast,
    ← div_eq_mul_inv]
  norm_num

/-- `DatasetBuilderConfig` (seed replaced by the oracle stream; the lock
filename is implicit in the threaded lock state).  `replay_ratio` defaults
to the binary64 value of the source literal `0.30`; `min_regime_ratio`
enters the claims only through `ceil(total * ratio)`, where the exact
`1/5` reproduces the binary64 result on every total arising here (see the
file header). -/
structure DatasetBuilderConfig : Type where
  min_outcome_records : ℕ := 500
  replay_ratio : ℚ := roundDouble (3/10)
  min_regime_ratio : ℚ := 1/5
deriving DecidableEq, Repr

/-- The `DecisionLogRecord` fields the dataset builder reads. -/
structure DecisionLogRecord : Type where
  id : ℕ
  timestamp : ℕ
  asset_class : String
  timeframe : String
  market_regime : MarketRegime
  outcome_pnl : Option ℚ
  trade_was_profitable : Option Bool
deriving DecidableEq, Repr

/-- `SelectedRecord` dataclass. -/
structure SelectedRecord : Type where
  record : DecisionLogRecord
  is_replay : Bool
deriving DecidableEq, Repr

/-- The `TrainingPair` fields the claims inspect; `timestamp` is the value
rendered into the prompt's timestamp line and re-parsed for the final
sort. -/
structure TrainingPairLite : Type where
  recordId : ℕ
  timestamp : ℕ
  regime : MarketRegime
  is_replay : Bool
  unmatched_negative : Bool
deriving DecidableEq, Repr

/-- Stable insertion by key: `x` goes after every earlier element whose
key is not greater (matching Python's stable `sorted`/`list.sort`). -/
def insertByKey {α : Type} (key : α → ℕ) (x : α) : List α → List α
  | [] => [x]
  | y :: ys => if key y < key x then y :: insertByKey key x ys
      else x :: y :: ys

/-- Stable sort by key (Python `sorted(..., key=...)`). -/
def sortByKey {α : Type} (key : α → ℕ) : List α → List α
  | [] => []
  | x :: xs => insertByKey key x (sortByKey key xs)

/-- `_regime_counts` at one regime. -/
def countRegime (records : List DecisionLogRecord) (reg : MarketRegime) : ℕ :=
  records.countP (fun r => r.market_regime == reg)

/-- `_regimes_meet_floor`: empty is unbalanced; otherwise every regime
needs at least `ceil(total * min_regime_ratio)` records. -/
def regimesMeetFloor (cfg : DatasetBuilderConfig)
    (records : List DecisionLogRecord) : Bool :=
  if records = [] then false
  else decide (∀ reg ∈ REGIMES,
    ⌈(records.length : ℚ) * cfg.min_regime_ratio⌉ ≤ (countRegime records reg : ℤ))

/-- The draw loop of `_sample_with_recency_weight` over the already
sorted pool: each draw consumes one oracle value `n` and picks index
`n % pool.length`.  (On an empty pool Python's `choices` raises; the
builder only samples from pools it has checked nonempty, and an empty
pool here yields a short result instead.) -/
def sampleLoop (ordered : List DecisionLogRecord) :
    ℕ → List ℕ → List DecisionLogRecord × List ℕ
  | 0, stream => ([], stream)
  | k + 1, stream =>
      let n := stream.headD 0
      let rest := stream.tail
      match ordered.get? (n % ordered.length) with
      | some r =>
          let res := sampleLoop ordered k rest
          (r :: res.1, res.2)
      | none => sampleLoop ordered k rest

/-- `_sample_with_recency_weight`: sort the pool by timestamp ascending,
then draw `count` weighted samples (oracle-driven, see above). -/
def sampleWithRecencyWeight (pool : List DecisionLogRecord) (count : ℕ)
    (stream : List ℕ) : List DecisionLogRecord × List ℕ :=
  sampleLoop (sortByKey (·.timestamp) pool) count stream

/-- The inner `for regime in REGIMES` pass of `_balance_regimes`: counts
and total are recomputed from the growing selection exactly as the source
mutates them in lockstep with `selected`. -/
def balancePass (cfg : DatasetBuilderConfig)
    (pools : MarketRegime → List DecisionLogRecord) :
    List MarketRegime → List SelectedRecord → List ℕ →
      List SelectedRecord × List ℕ
  | [], selected, stream => (selected, stream)
  | reg :: rest, selected, stream =>
      let total := selected.length
      let min_count := ⌈(total : ℚ) * cfg.min_regime_ratio⌉
      if min_count ≤ (countRegime (selected.map (·.record)) reg : ℤ) then
        balancePass cfg pools rest selected stream
      else
        match sampleWithRecencyWeight (pools reg) 1 stream with
        | (picked, stream') =>
            balancePass cfg pools rest
              (selected ++ picked.map (fun r => ⟨r, false⟩)) stream'

/-- The `while` loop of `_balance_regimes`, with `fuel` the remaining
iteration budget (`max_iterations - iterations`). -/
def balanceLoop (cfg : DatasetBuilderConfig)
    (pools : MarketRegime → List DecisionLogRecord) :
    ℕ → List SelectedRecord → List ℕ → List SelectedRecord × List ℕ
  | 0, selected, stream => (selected, stream)
  | fuel + 1, selected, stream =>
      if regimesMeetFloor cfg (selected.map (·.record)) then (selected, stream)
      else
        match balancePass cfg pools REGIMES selected stream with
        | (selected', stream') => balanceLoop cfg pools fuel selected' stream'

/-- The final floor re-check of `_balance_regimes`. -/
def finalizeBalance (cfg : DatasetBuilderConfig)
    (res : List SelectedRecord × List ℕ) :
    Except String (List SelectedRecord × List ℕ) :=
  if regimesMeetFloor cfg (res.1.map (·.record)) then .ok res
  else .error "Unable to satisfy minimum regime distribution constraints."

/-- `_balance_regimes`: per-regime pools over the historical pool, a fatal
error on any regime absent from the pool, then the capped balancing loop
(`max_iterations = 8 * len(base_records)`), then the floor re-check. -/
def balanceRegimes (cfg : DatasetBuilderConfig)
    (base_records : List DecisionLogRecord)
    (historical_pool : List DecisionLogRecord) (stream : List ℕ) :
    Except String (List SelectedRecord × List ℕ) :=
  match REGIMES.find? (fun reg =>
      (historical_pool.filter (fun r => r.market_regime == reg)).isEmpty) with
  | some reg =>
      .error ("No historical records available for regime: " ++ regimeName reg)
  | none =>
      finalizeBalance cfg
        (balanceLoop cfg
          (fun reg => historical_pool.filter (fun r => r.market_regime == reg))
          (base_records.length * 8)
          (base_records.map (fun r => ⟨r, false⟩)) stream)

/-- Replay-row count of `_inject_replay_buffer`:
`math.ceil(replay_ratio * base_count / (1.0 - replay_ratio))` evaluated in
binary64 — each multiplication, subtraction and division rounds once
(`roundPair` on fraction pairs), and `math.ceil` is the exact ceiling of
the resulting float.  Bit-exact for a configured ratio in `[0, 1)` and
base counts below `2^53`, where the int-to-float conversion of
`base_count` is exact. -/
def replayCount (cfg : DatasetBuilderConfig)
    (base_records : List SelectedRecord) : ℕ :=
  ceilPair (fdivPair (fmulPair cfg.replay_ratio base_records.length)
    (fsubOnePair cfg.replay_ratio))

/-- `_inject_replay_buffer` draw step over the full pool. -/
def injectReplayBuffer (cfg : DatasetBuilderConfig)
    (base_records : List SelectedRecord)
    (historical_pool : List DecisionLogRecord) (stream : List ℕ) :
    List SelectedRecord × List ℕ :=
  match sampleWithRecencyWeight historical_pool
      (replayCount cfg base_records) stream with
  | (sampled, stream') =>
      (base_records ++ sampled.map (fun r => ⟨r, true⟩), stream')

end Trading

namespace Trading

/-- Context key of `_build_pairs`:
`(market_regime, asset_class, timeframe)`. -/
def contextKey (r : DecisionLogRecord) : MarketRegime × String × String :=
  (r.market_regime, r.asset_class, r.timeframe)

/-- `_record_to_pair`, restricted to the fields the claims inspect. -/
def recordToPair (r : DecisionLogRecord) (is_replay unmatched : Bool) :
    TrainingPairLite :=
  { recordId := r.id, timestamp := r.timestamp, regime := r.market_regime,
    is_replay := is_replay, unmatched_negative := unmatched }

/-- The per-record emission loop of `_build_pairs`: a profitable record
pops the first negative of its context key (emitted before it, with
`is_replay` inherited), or is marked `unmatched_negative`; every selected
record then emits its own pair. -/
def buildPairsLoop :
    List SelectedRecord → ((MarketRegime × String × String) → List DecisionLogRecord) →
      List TrainingPairLite → List TrainingPairLite
  | [], _, pairs => pairs
  | sel :: rest, negatives, pairs =>
      let r := sel.record
      if r.trade_was_profitable == some true then
        match negatives (contextKey r) with
        | [] =>
            buildPairsLoop rest negatives
              (pairs ++ [recordToPair r sel.is_replay true])
        | neg :: negRest =>
            buildPairsLoop rest
              (fun k => if k = contextKey r then negRest else negatives k)
              (pairs ++ [recordToPair neg sel.is_replay false,
                recordToPair r sel.is_replay false])
      else
        buildPairsLoop rest negatives
          (pairs ++ [recordToPair r sel.is_replay false])

/-- `_build_pairs`: negatives pooled per context key from the historical
pool in pool order (non-profitable records only), the emission loop, then
the stable re-sort by prompt timestamp. -/
def buildPairs (selected_records : List SelectedRecord)
    (historical_pool : List DecisionLogRecord) : List TrainingPairLite :=
  let negatives := fun k =>
    (historical_pool.filter
      (fun r => !(r.trade_was_profitable == some true))).filter
      (fun r => contextKey r == k)
  sortByKey (·.timestamp) (buildPairsLoop selected_records negatives [])

/-- `DatasetBuilder.build` result fields the claims inspect
(`balancedTrain` is the training selection before replay injection,
`selectedTrain` the replay-enriched selection behind `train.jsonl`). -/
structure BuildOut : Type where
  balancedTrain : List SelectedRecord
  selectedTrain : List SelectedRecord
  trainPairs : List TrainingPairLite
  validationPairs : List TrainingPairLite
  testPairs : List TrainingPairLite
  trainRecords : List DecisionLogRecord
  validationRecords : List DecisionLogRecord
  testRecords : List DecisionLogRecord
deriving DecidableEq, Repr

/-- Eligibility and temporal ordering of `DatasetBuilder.build`: records
with both outcome fields set, sorted by timestamp ascending (stably). -/
def eligibleOf (records : List DecisionLogRecord) : List DecisionLogRecord :=
  sortByKey (·.timestamp)
    (records.filter (fun r =>
      !(r.outcome_pnl == none) && !(r.trade_was_profitable == none)))

/-- The split step of `build`: `_initial_time_split` (70/85 percent index
cuts, then the holdout lock is written with the test ids) when no lock
exists, `_split_with_locked_holdout` (`test = ids in lock`, remainder cut
at `int(len * 0.70/0.85)`) when it does.  Returns
`(train, validation, test, lock-after-split)`. -/
def splitRecords (lock : Option (List ℕ))
    (eligible : List DecisionLogRecord) :
    List DecisionLogRecord × List DecisionLogRecord ×
      List DecisionLogRecord × Option (List ℕ) :=
  match lock with
  | some ids =>
      let test_records := eligible.filter (fun r => decide (r.id ∈ ids))
      let remainder := eligible.filter (fun r => decide (r.id ∉ ids))
      let train_end := remainder.length * 14 / 17
      (remainder.take train_end, remainder.drop train_end, test_records,
        some ids)
  | none =>
      let count := eligible.length
      let train_end := count * 70 / 100
      let validation_end := count * 85 / 100
      (eligible.take train_end,
        (eligible.drop train_end).take (validation_end - train_end),
        eligible.drop validation_end,
        some ((eligible.drop validation_end).map (·.id)))

/-- `DatasetBuilder.build` (file writes dropped; the holdout lock state is
returned alongside the result, and is written before balancing, exactly as
the source persists it before `_balance_regimes` can raise).  The oracle
`stream` drives every weighted draw. -/
def buildModel (cfg : DatasetBuilderConfig) (lock : Option (List ℕ))
    (records : List DecisionLogRecord) (stream : List ℕ) :
    Option (List ℕ) × Except String BuildOut :=
  if (eligibleOf records).length < cfg.min_outcome_records then
    (lock, .error "Insufficient outcome-labeled records for training")
  else
    match balanceRegimes cfg (splitRecords lock (eligibleOf records)).1
        (eligibleOf records) stream with
    | .error e => ((splitRecords lock (eligibleOf records)).2.2.2, .error e)
    | .ok (balanced, stream') =>
        match injectReplayBuffer cfg balanced (eligibleOf records) stream' with
        | (enriched, _) =>
            ((splitRecords lock (eligibleOf records)).2.2.2, .ok
              { balancedTrain := balanced
                selectedTrain := enriched
                trainPairs := buildPairs enriched (eligibleOf records)
                validationPairs :=
                  buildPairs
                    ((splitRecords lock (eligibleOf records)).2.1.map
                      (fun r => ⟨r, false⟩))
                    (splitRecords lock (eligibleOf records)).2.1
                testPairs :=
                  buildPairs
                    ((splitRecords lock (eligibleOf records)).2.2.1.map
                      (fun r => ⟨r, false⟩))
                    (splitRecords lock (eligibleOf records)).2.2.1
                trainRecords := (splitRecords lock (eligibleOf records)).1
                validationRecords := (splitRecords lock (eligibleOf records)).2.1
                testRecords := (splitRecords lock (eligibleOf records)).2.2.1 })

/-- A sequence of `build` calls sharing one output directory: the lock
state threads from call to call. -/
def runBuilds (cfg : DatasetBuilderConfig) :
    Option (List ℕ) → List (List DecisionLogRecord × List ℕ) →
      Option (List ℕ) × List (Except String BuildOut)
  | lock, [] => (lock, [])
  | lock, b :: rest =>
      ((runBuilds cfg (buildModel cfg lock b.1 b.2).1 rest).1,
        (buildModel cfg lock b.1 b.2).2 ::
          (runBuilds cfg (buildModel cfg lock b.1 b.2).1 rest).2)

end Trading

namespace Trading

/-- Builder configuration for the concrete builds below: the spec-default
ratios (`replay_ratio = 0.30` as a binary64 value — this literal fraction
is `roundDouble (3/10)`, see `roundDouble_point_three` — and
`min_regime_ratio = 0.20`) over a small record pool. -/
def cfgCE : DatasetBuilderConfig :=
  { min_outcome_records := 20,
    replay_ratio := Rat.divInt 5404319552844595 18014398509481984,
    min_regime_ratio := 1/5 }

/-- An outcome-labelled decision record with id and timestamp `i`. -/
def mkRec (i : ℕ) (reg : MarketRegime) (profitable : Bool) : DecisionLogRecord :=
  { id := i, timestamp := i, asset_class := "other", timeframe := "1h",
    market_regime := reg, outcome_pnl := some 1,
    trade_was_profitable := some profitable }

/-- Twenty eligible records: the 70% training prefix (ids 0-13) holds 4
bull / 4 bear / 3 mean-reverting / 3 high-volatility records — already at
the 20% floor — with three profitable records (ids 0-2), whose context
pool holds exactly three negatives (ids 3, 14, 15). -/
def ceRecords : List DecisionLogRecord :=
  [mkRec 0 .trending_bull true, mkRec 1 .trending_bull true,
   mkRec 2 .trending_bull true, mkRec 3 .trending_bull false,
   mkRec 4 .trending_bear false, mkRec 5 .trending_bear false,
   mkRec 6 .trending_bear false, mkRec 7 .trending_bear false,
   mkRec 8 .mean_reverting false, mkRec 9 .mean_reverting false,
   mkRec 10 .mean_reverting false, mkRec 11 .high_volatility false,
   mkRec 12 .high_volatility false, mkRec 13 .high_volatility false,
   mkRec 14 .trending_bull false, mkRec 15 .trending_bull false,
   mkRec 16 .mean_reverting false, mkRec 17 .mean_reverting false,
   mkRec 18 .mean_reverting false, mkRec 19 .mean_reverting false]

/-- Oracle draws for the first build: all seven replay draws (the float
count for a base of 14 is `ceil(6.000000000000001) = 7`) pick index 8 —
the non-profitable mean-reverting record id 8. -/
def ceStream : List ℕ := [8, 8, 8, 8, 8, 8, 8]

/-- The holdout lock the first build writes: the last-15% records. -/
def lockCE : List ℕ := [17, 18, 19]

/-- A later batch: the same history plus four new mean-reverting
records. -/
def ceRecords2 : List DecisionLogRecord :=
  ceRecords ++
    [mkRec 20 .mean_reverting false, mkRec 21 .mean_reverting false,
     mkRec 22 .mean_reverting false, mkRec 23 .mean_reverting false]

/-- Oracle draws for the second build (one balancing draw, eight replay
draws). -/
def ceStream2 : List ℕ := [0, 0, 0, 0, 0, 0, 0, 0, 0]

end Trading

set_option maxRecDepth 2500 in
/-- C3 counterexample: a successful build (spec ratios, all regimes
present and at the floor in the base selection) whose replay injection
(seven rows: the binary64 count for a base of 14) concentrates on one
regime; over the selected training records *including the replay rows*
the high-volatility share is 3/21 = 1/7 < 0.20, though the regime is
present in the eligible pool. -/
theorem dataset_regime_floor_diluted_by_replay :
    ((Trading.buildModel Trading.cfgCE none Trading.ceRecords
        Trading.ceStream).2.toOption.map
      (fun out =>
        ((Trading.countRegime (out.selectedTrain.map (fun s => s.record))
            .high_volatility : ℚ) / (out.selectedTrain.length : ℚ)))) =
      some (1/7) ∧
    (1/7 : ℚ) < Trading.cfgCE.min_regime_ratio ∧
    Trading.countRegime (Trading.eligibleOf Trading.ceRecords)
      .high_volatility ≠ 0 := by
  refine ⟨?_, ?_, ?_⟩ <;> with_unfolding_all decide

set_option maxRecDepth 2500 in
/-- C4 counterexample: the same successful build; the replay-enriched
selection is 7 of 21 replay (above 30%), but pair construction emits a
non-replay paired negative for each of the three profitable base records,
so of the 24 rows written to `train.jsonl` only 7 carry
`is_replay = true`: 7/24 < 0.30. -/
theorem dataset_replay_ratio_diluted_by_negatives :
    ((Trading.buildModel Trading.cfgCE none Trading.ceRecords
        Trading.ceStream).2.toOption.map
      (fun out =>
        ((out.trainPairs.countP (fun p => p.is_replay) : ℚ) /
          (out.trainPairs.length : ℚ)))) = some (7/24) ∧
    (7/24 : ℚ) < (3/10 : ℚ) ∧
    ((Trading.buildModel Trading.cfgCE none Trading.ceRecords
        Trading.ceStream).2.toOption.map
      (fun out => out.trainPairs.length)) = some 24 := by
  refine ⟨?_, ?_, ?_⟩ <;> with_unfolding_all decide

/-- Helper: what a passing floor check means. -/
theorem regimesMeetFloor_spec (cfg : Trading.DatasetBuilderConfig)
    (recs : List Trading.DecisionLogRecord)
    (h : Trading.regimesMeetFloor cfg recs = true) :
    recs ≠ [] ∧ ∀ reg ∈ Trading.REGIMES,
      ⌈(recs.length : ℚ) * cfg.min_regime_ratio⌉ ≤
        (Trading.countRegime recs reg : ℤ) := by
  unfold Trading.regimesMeetFloor at h
  by_cases hnil : recs = []
  · rw [if_pos hnil] at h
    cases h
  · rw [if_neg hnil] at h
    exact ⟨hnil, of_decide_eq_true h⟩

/-- Helper: the balance pass only appends non-replay selections. -/
theorem balancePass_replay_false (cfg : Trading.DatasetBuilderConfig)
    (pools : Trading.MarketRegime → List Trading.DecisionLogRecord) :
    ∀ (regs : List Trading.MarketRegime) (selected : List Trading.SelectedRecord)
      (stream : List ℕ),
      (∀ s ∈ selected, s.is_replay = false) →
      ∀ s ∈ (Trading.balancePass cfg pools regs selected stream).1,
        s.is_replay = false := by
  intro regs
  induction regs with
  | nil => intro selected stream hsel; exact hsel
  | cons reg rest ih =>
      intro selected stream hsel s
      rw [Trading.balancePass]
      by_cases hc : ⌈(selected.length : ℚ) * cfg.min_regime_ratio⌉ ≤
          (Trading.countRegime (selected.map (fun s => s.record)) reg : ℤ)
      · rw [if_pos hc]
        exact ih selected stream hsel s
      · rw [if_neg hc]
        cases hsw : Trading.sampleWithRecencyWeight (pools reg) 1 stream with
        | mk picked stream' =>
            refine ih _ stream' ?_ s
            intro t ht
            rcases List.mem_append.mp ht with h1 | h2
            · exact hsel t h1
            · rcases List.mem_map.mp h2 with ⟨r, -, hr⟩
              rw [← hr]

/-- Helper: the balancing loop only appends non-replay selections. -/
theorem balanceLoop_replay_false (cfg : Trading.DatasetBuilderConfig)
    (pools : Trading.MarketRegime → List Trading.DecisionLogRecord) :
    ∀ (fuel : ℕ) (selected : List Trading.SelectedRecord) (stream : List ℕ),
      (∀ s ∈ selected, s.is_replay = false) →
      ∀ s ∈ (Trading.balanceLoop cfg pools fuel selected stream).1,
        s.is_replay = false := by
  intro fuel
  induction fuel with
  | zero => intro selected stream hsel; exact hsel
  | succ f ih =>
      intro selected stream hsel s
      rw [Trading.balanceLoop]
      by_cases hm : Trading.regimesMeetFloor cfg
          (selected.map (fun s => s.record)) = true
      · rw [if_pos hm]
        exact hsel s
      · rw [if_neg hm]
        cases hbp : Trading.balancePass cfg pools Trading.REGIMES selected stream with
        | mk selected' stream' =>
            exact ih selected' stream'
              (fun t ht =>
                balancePass_replay_false cfg pools Trading.REGIMES selected
                  stream hsel t (by rw [hbp]; exact ht)) s

/-- Helper: the postconditions of a successful `_balance_regimes` call:
the floor holds on the output, no regime pool was empty (so the
historical pool is nonempty), and nothing selected is a replay row. -/
theorem balanceRegimes_ok_props (cfg : Trading.DatasetBuilderConfig)
    (base pool : List Trading.DecisionLogRecord) (stream : List ℕ)
    (res : List Trading.SelectedRecord × List ℕ)
    (h : Trading.balanceRegimes cfg base pool stream = .ok res) :
    Trading.regimesMeetFloor cfg (res.1.map (fun s => s.record)) = true ∧
      pool ≠ [] ∧ ∀ s ∈ res.1, s.is_replay = false := by
  unfold Trading.balanceRegimes Trading.finalizeBalance at h
  split at h
  · cases h
  · rename_i hfind
    split at h
    · rename_i hfl
      cases h
      refine ⟨hfl, ?_, ?_⟩
      · intro hpool
        have hbull := List.find?_eq_none.mp hfind
          Trading.MarketRegime.trending_bull (by simp [Trading.REGIMES])
        rw [hpool] at hbull
        simp [List.filter] at hbull
      · exact balanceLoop_replay_false cfg _ (base.length * 8)
          (base.map (fun r => ⟨r, false⟩)) stream
          (fun s hs => by
            rcases List.mem_map.mp hs with ⟨r, -, hr⟩
            rw [← hr])
    · cases h

/-- Helper: the length of a stable keyed insertion. -/
theorem length_insertByKey {α : Type} (key : α → ℕ) (x : α) :
    ∀ l : List α, (Trading.insertByKey key x l).length = l.length + 1 := by
  intro l
  induction l with
  | nil => rfl
  | cons y ys ih =>
      rw [Trading.insertByKey]
      by_cases hc : key y < key x
      · rw [if_pos hc]
        simp [ih]
      · rw [if_neg hc]
        rfl

/-- Helper: the stable keyed sort preserves length. -/
theorem length_sortByKey {α : Type} (key : α → ℕ) :
    ∀ l : List α, (Trading.sortByKey key l).length = l.length := by
  intro l
  induction l with
  | nil => rfl
  | cons x xs ih =>
      rw [Trading.sortByKey, length_insertByKey, ih, List.length_cons]

/-- Helper: over a nonempty pool the draw loop returns exactly the
requested number of samples. -/
theorem sampleLoop_length (ordered : List Trading.DecisionLogRecord)
    (hne : ordered ≠ []) :
    ∀ (k : ℕ) (stream : List ℕ),
      ((Trading.sampleLoop ordered k stream).1).length = k := by
  intro k
  induction k with
  | zero => intro stream; rfl
  | succ n ih =>
      intro stream
      rw [Trading.sampleLoop]
      cases hget : ordered.get? (stream.headD 0 % ordered.length) with
      | some r => simp [ih]
      | none =>
          exfalso
          have hlen := List.get?_eq_none.mp hget
          have hpos : 0 < ordered.length := List.length_pos.mpr hne
          have := Nat.mod_lt (stream.headD 0) hpos
          omega

/-- Helper: dissect a successful `build`: the balanced selection came out
of a successful `_balance_regimes` call over the training split and the
eligible pool, and the enriched selection is its replay injection. -/
theorem buildModel_ok_parts (cfg : Trading.DatasetBuilderConfig)
    (lock : Option (List ℕ)) (records : List Trading.DecisionLogRecord)
    (stream : List ℕ) (out : Trading.BuildOut)
    (h : (Trading.buildModel cfg lock records stream).2 = .ok out) :
    ∃ stream',
      Trading.balanceRegimes cfg
          (Trading.splitRecords lock (Trading.eligibleOf records)).1
          (Trading.eligibleOf records) stream = .ok (out.balancedTrain, stream') ∧
      out.selectedTrain =
        (Trading.injectReplayBuffer cfg out.balancedTrain
          (Trading.eligibleOf records) stream').1 := by
  unfold Trading.buildModel at h
  split at h
  · cases h
  · split at h
    · cases h
    · rename_i balanced stream' hbal
      split at h
      · rename_i enriched s2 hinj
        cases h
        exact ⟨stream', by rw [hbal], by rw [hinj]⟩

/-- Helper: the selection after replay injection is the base plus the
sampled rows flagged as replay. -/
theorem injectReplayBuffer_fst (cfg : Trading.DatasetBuilderConfig)
    (base : List Trading.SelectedRecord)
    (pool : List Trading.DecisionLogRecord) (stream : List ℕ) :
    (Trading.injectReplayBuffer cfg base pool stream).1 =
      base ++ ((Trading.sampleWithRecencyWeight pool
        (Trading.replayCount cfg base) stream).1).map (fun r => ⟨r, true⟩) := by
  unfold Trading.injectReplayBuffer
  cases hsw : Trading.sampleWithRecencyWeight pool
      (Trading.replayCount cfg base) stream with
  | mk sampled stream' => rfl

/-- C3 amended: for every successful build and every regime, the
*balanced base selection* (before replay injection) satisfies the regime
floor: its share of each regime is at least `min_regime_ratio`.  The
replay rows injected afterwards are not re-balanced and can push a
regime's share below the floor (see the counterexample). -/
theorem dataset_regime_floor_before_replay
    (cfg : Trading.DatasetBuilderConfig) (lock : Option (List ℕ))
    (records : List Trading.DecisionLogRecord) (stream : List ℕ)
    (out : Trading.BuildOut)
    (h : (Trading.buildModel cfg lock records stream).2 = .ok out) :
    0 < out.balancedTrain.length ∧
      ∀ reg ∈ Trading.REGIMES,
        cfg.min_regime_ratio ≤
          (Trading.countRegime (out.balancedTrain.map (fun s => s.record))
            reg : ℚ) / (out.balancedTrain.length : ℚ) := by
  obtain ⟨stream', hbal, -⟩ := buildModel_ok_parts cfg lock records stream out h
  have hprops := balanceRegimes_ok_props cfg _ _ stream _ hbal
  obtain ⟨hne, hall⟩ := regimesMeetFloor_spec cfg _ hprops.1
  have hlen0 : 0 < (out.balancedTrain.map (fun s => s.record)).length :=
    List.length_pos.mpr hne
  rw [List.length_map] at hlen0
  refine ⟨hlen0, fun reg hreg => ?_⟩
  have hc := hall reg hreg
  have hq : ((out.balancedTrain.map (fun s => s.record)).length : ℚ) *
      cfg.min_regime_ratio ≤
      (Trading.countRegime (out.balancedTrain.map (fun s => s.record)) reg : ℚ) :=
    le_trans (Int.le_ceil _) (by exact_mod_cast hc)
  rw [List.length_map] at hq
  rw [le_div_iff₀ (by exact_mod_cast hlen0)]
  linarith [hq, mul_comm (cfg.min_regime_ratio)
    ((out.balancedTrain.length : ℚ))]

/-- With the binary64 replay ratio `fl(0.30)`, the float replay count `m`
taken by `_inject_replay_buffer` satisfies `3 * B ≤ 7 * m` for every base
count `B` up to `2^40`. -/
theorem replayCount_float_lower (cfg : Trading.DatasetBuilderConfig)
    (base : List Trading.SelectedRecord)
    (hr : cfg.replay_ratio = Trading.roundDouble (3/10))
    (hN : base.length ≤ 2 ^ 40) :
    3 * base.length ≤ 7 * Trading.replayCount cfg base := by
  have hval : cfg.replay_ratio =
      Rat.divInt 5404319552844595 18014398509481984 :=
    hr.trans Trading.roundDouble_point_three
  have hnum : cfg.replay_ratio.num.toNat = 5404319552844595 := by
    rw [hval]
    with_unfolding_all decide
  have hden : cfg.replay_ratio.den = 18014398509481984 := by
    rw [hval]
    with_unfolding_all decide
  have hdpair : Trading.roundPair (18014398509481984 - 5404319552844595)
      18014398509481984 = (6305039478318694, 9007199254740992) := by
    with_unfolding_all decide
  unfold Trading.replayCount Trading.fmulPair Trading.fsubOnePair
  rw [hnum, hden, hdpair]
  exact Trading.replay_pair_lower base.length hN

/-- C4 amended: for every successful build with the source replay ratio
(the binary64 value of `0.30`) and a base selection of realistic size, the
replay share of the *selected training records* (base plus injected
replay rows, before pair construction) is at least `3/10`; the paired
negatives emitted for profitable records inherit the positive's flag and
can dilute the share of the final `train.jsonl` rows below the target
(see the counterexample). -/
theorem dataset_replay_ratio_selected
    (cfg : Trading.DatasetBuilderConfig) (lock : Option (List ℕ))
    (records : List Trading.DecisionLogRecord) (stream : List ℕ)
    (out : Trading.BuildOut)
    (h : (Trading.buildModel cfg lock records stream).2 = .ok out)
    (hr : cfg.replay_ratio = Trading.roundDouble (3/10))
    (hN : out.balancedTrain.length ≤ 2 ^ 40) :
    0 < out.selectedTrain.length ∧
      (3/10 : ℚ) ≤
        (out.selectedTrain.countP (fun s => s.is_replay) : ℚ) /
          (out.selectedTrain.length : ℚ) := by
  obtain ⟨stream', hbal, hsel⟩ := buildModel_ok_parts cfg lock records stream out h
  obtain ⟨hfloor, hpool, hrep⟩ := balanceRegimes_ok_props cfg _ _ stream _ hbal
  obtain ⟨hne, -⟩ := regimesMeetFloor_spec cfg _ hfloor
  have hB : 0 < out.balancedTrain.length := by
    have := List.length_pos.mpr hne
    rw [List.length_map] at this
    exact this
  have hordered : Trading.sortByKey (fun r => r.timestamp)
      (Trading.eligibleOf records) ≠ [] := by
    intro hx
    have hl := length_sortByKey (fun r => r.timestamp)
      (Trading.eligibleOf records)
    rw [hx] at hl
    have := List.length_pos.mpr hpool
    simp at hl
    omega
  rw [hsel, injectReplayBuffer_fst]
  have hsam : ((Trading.sampleWithRecencyWeight (Trading.eligibleOf records)
      (Trading.replayCount cfg out.balancedTrain) stream').1).length =
      Trading.replayCount cfg out.balancedTrain := by
    unfold Trading.sampleWithRecencyWeight
    exact sampleLoop_length _ hordered _ stream'
  set m := Trading.replayCount cfg out.balancedTrain with hm
  set B := out.balancedTrain.length with hBdef
  set sampled := (Trading.sampleWithRecencyWeight (Trading.eligibleOf records)
    m stream').1 with hsampled
  have hcount : (out.balancedTrain ++ sampled.map
      (fun r => ({ record := r, is_replay := true } : Trading.SelectedRecord))).countP
      (fun s => s.is_replay) = m := by
    rw [List.countP_append, List.countP_map]
    have hz : out.balancedTrain.countP (fun s => s.is_replay) = 0 := by
      rw [List.countP_eq_zero]
      intro s hs
      simp [hrep s hs]
    have ho : sampled.countP ((fun s : Trading.SelectedRecord => s.is_replay) ∘
        (fun r => ({ record := r, is_replay := true } : Trading.SelectedRecord))) =
        sampled.length := by
      rw [List.countP_eq_length]
      intro r hr
      rfl
    rw [hz, ho, hsam]
    omega
  have hlen : (out.balancedTrain ++ sampled.map
      (fun r => ({ record := r, is_replay := true } : Trading.SelectedRecord))).length =
      B + m := by
    rw [List.length_append, List.length_map, hsam]
  constructor
  · rw [hlen]; omega
  · rw [hcount, hlen]
    have h37 : 3 * B ≤ 7 * m := by
      rw [hm, hBdef]
      exact replayCount_float_lower cfg out.balancedTrain hr hN
    have hBm : (0 : ℚ) < ((B + m : ℕ) : ℚ) := by
      have : 0 < B + m := by omega
      exact_mod_cast this
    rw [le_div_iff₀ hBm]
    have h37q : 3 * (B : ℚ) ≤ 7 * (m : ℚ) := by exact_mod_cast h37
    have hcast : ((B + m : ℕ) : ℚ) = (B : ℚ) + (m : ℚ) := by push_cast; ring
    rw [hcast]
    linarith

namespace Trading

/-- The first concrete build (used by the dataset witnesses). -/
def ceFirstBuild : Option (List ℕ) × Except String BuildOut :=
  buildModel cfgCE none ceRecords ceStream

/-- The result object of the first concrete build. -/
def ceOut : BuildOut :=
  match ceFirstBuild.2 with
  | .ok o => o
  | .error _ => ⟨[], [], [], [], [], [], [], []⟩

end Trading

set_option maxRecDepth 2500 in
/-- Witness for C3's amended theorem: the concrete build succeeds and its
balanced base selection meets the floor for the high-volatility regime. -/
theorem dataset_regime_floor_before_replay_witness :
    (Trading.buildModel Trading.cfgCE none Trading.ceRecords
        Trading.ceStream).2 = .ok Trading.ceOut ∧
      (0 < Trading.ceOut.balancedTrain.length ∧
        ∀ reg ∈ Trading.REGIMES,
          Trading.cfgCE.min_regime_ratio ≤
            (Trading.countRegime
              (Trading.ceOut.balancedTrain.map (fun s => s.record)) reg : ℚ) /
              (Trading.ceOut.balancedTrain.length : ℚ)) :=
  ⟨by with_unfolding_all rfl,
    dataset_regime_floor_before_replay Trading.cfgCE none Trading.ceRecords
      Trading.ceStream Trading.ceOut (by with_unfolding_all rfl)⟩

set_option maxRecDepth 2500 in
/-- Witness for C4's amended theorem: the same build's replay-enriched
selection is at least 30% replay (exactly 7 of 21 rows). -/
theorem dataset_replay_ratio_selected_witness :
    (Trading.buildModel Trading.cfgCE none Trading.ceRecords
        Trading.ceStream).2 = .ok Trading.ceOut ∧
      Trading.cfgCE.replay_ratio = Trading.roundDouble (3/10) ∧
      Trading.ceOut.balancedTrain.length ≤ 2 ^ 40 ∧
      (0 < Trading.ceOut.selectedTrain.length ∧
        (3/10 : ℚ) ≤
          (Trading.ceOut.selectedTrain.countP (fun s => s.is_replay) : ℚ) /
            (Trading.ceOut.selectedTrain.length : ℚ)) :=
  ⟨by with_unfolding_all rfl, Trading.roundDouble_point_three.symm,
    by with_unfolding_all decide,
    dataset_replay_ratio_selected Trading.cfgCE none Trading.ceRecords
      Trading.ceStream Trading.ceOut (by with_unfolding_all rfl)
      Trading.roundDouble_point_three.symm (by with_unfolding_all decide)⟩

/-- Helper for C5: a build finding an existing lock never rewrites it and
partitions its eligible records with exactly the locked ids as the test
split. -/
theorem buildModel_locked (cfg : Trading.DatasetBuilderConfig) (L : List ℕ)
    (records : List Trading.DecisionLogRecord) (stream : List ℕ) :
    (Trading.buildModel cfg (some L) records stream).1 = some L ∧
      ∀ out, (Trading.buildModel cfg (some L) records stream).2 = .ok out →
        out.testRecords =
          (Trading.eligibleOf records).filter (fun r => decide (r.id ∈ L)) := by
  by_cases hlen : (Trading.eligibleOf records).length < cfg.min_outcome_records
  · constructor
    · simp [Trading.buildModel, hlen]
    · intro out hout
      simp [Trading.buildModel, hlen] at hout
  · cases hbal : Trading.balanceRegimes cfg
        (Trading.splitRecords (some L) (Trading.eligibleOf records)).1
        (Trading.eligibleOf records) stream with
    | error e =>
        constructor
        · simp [Trading.buildModel, hlen, hbal]
          simp [Trading.splitRecords]
        · intro out hout
          simp [Trading.buildModel, hlen, hbal] at hout
    | ok p =>
        cases p with
        | mk balanced stream' =>
            cases hinj : Trading.injectReplayBuffer cfg balanced
                (Trading.eligibleOf records) stream' with
            | mk enriched s2 =>
                constructor
                · simp [Trading.buildModel, hlen, hbal, hinj]
                  simp [Trading.splitRecords]
                · intro out hout
                  simp [Trading.buildModel, hlen, hbal, hinj] at hout
                  rw [← hout]
                  simp [Trading.splitRecords]

/-- Helper for C5: once the lock holds ids `L`, any sequence of later
builds keeps it at `L`, and every successful later build uses exactly the
records with locked ids as its test split. -/
theorem runBuilds_locked (cfg : Trading.DatasetBuilderConfig) (L : List ℕ) :
    ∀ builds : List (List Trading.DecisionLogRecord × List ℕ),
      (Trading.runBuilds cfg (some L) builds).1 = some L ∧
        List.Forall₂ (fun bi res => ∀ out : Trading.BuildOut,
          res = Except.ok out →
          out.testRecords =
            (Trading.eligibleOf bi.1).filter (fun r => decide (r.id ∈ L)))
          builds (Trading.runBuilds cfg (some L) builds).2 := by
  intro builds
  induction builds with
  | nil => exact ⟨rfl, List.Forall₂.nil⟩
  | cons b rest ih =>
      have hb := buildModel_locked cfg L b.1 b.2
      rw [Trading.runBuilds, hb.1]
      exact ⟨ih.1, List.Forall₂.cons hb.2 ih.2⟩

/-- C5: the test ids written into `holdout_lock.json` by the first build
are never rewritten by any later build sharing the output directory, and
every later build partitions its eligible records using exactly those ids
as the test split (the rest becoming the train/validation remainder). -/
theorem holdout_lock_never_rewritten (cfg : Trading.DatasetBuilderConfig)
    (L : List ℕ) (records₀ : List Trading.DecisionLogRecord)
    (stream₀ : List ℕ)
    (builds : List (List Trading.DecisionLogRecord × List ℕ))
    (h₀ : (Trading.buildModel cfg none records₀ stream₀).1 = some L) :
    (Trading.runBuilds cfg (some L) builds).1 = some L ∧
      List.Forall₂ (fun bi res => ∀ out : Trading.BuildOut,
        res = Except.ok out →
        out.testRecords =
          (Trading.eligibleOf bi.1).filter (fun r => decide (r.id ∈ L)))
        builds (Trading.runBuilds cfg (some L) builds).2 :=
  runBuilds_locked cfg L builds

set_option maxRecDepth 2500 in
/-- Witness for C5: the first concrete build writes lock `[17, 18, 19]`;
a second build over the extended history keeps the lock unchanged, and its
test split is exactly the filter by those ids (the second build does
succeed, with test record ids `[17, 18, 19]`). -/
theorem holdout_lock_never_rewritten_witness :
    (Trading.buildModel Trading.cfgCE none Trading.ceRecords
        Trading.ceStream).1 = some Trading.lockCE ∧
      ((Trading.runBuilds Trading.cfgCE (some Trading.lockCE)
          [(Trading.ceRecords2, Trading.ceStream2)]).1 = some Trading.lockCE ∧
        List.Forall₂ (fun bi res => ∀ out : Trading.BuildOut,
          res = Except.ok out →
          out.testRecords =
            (Trading.eligibleOf bi.1).filter
              (fun r => decide (r.id ∈ Trading.lockCE)))
          [(Trading.ceRecords2, Trading.ceStream2)]
          (Trading.runBuilds Trading.cfgCE (some Trading.lockCE)
            [(Trading.ceRecords2, Trading.ceStream2)]).2) ∧
      ((Trading.buildModel Trading.cfgCE (some Trading.lockCE)
          Trading.ceRecords2 Trading.ceStream2).2.toOption.map
        (fun out => out.testRecords.map (fun r => r.id))) = some Trading.lockCE :=
  ⟨by with_unfolding_all rfl,
    holdout_lock_never_rewritten Trading.cfgCE Trading.lockCE
      Trading.ceRecords Trading.ceStream
      [(Trading.ceRecords2, Trading.ceStream2)] (by with_unfolding_all rfl),
    by with_unfolding_all decide⟩
